import Mathlib

/-!
Shallow embedding of the endless-runner game loop of this repository.

Two near-duplicate implementations exist in the source: the module-level game
of `src/client/main.ts` (modelled in namespace `MainGame`) and the class
`EnhancedRunnerGame` of `src/client/three/game/enhanced-runner-game.ts`
(modelled in namespace `Enh`).  Rendering, DOM, particle effects and the
wall-clock (`Date.now()`) cosmetic animations are external collaborators and
are omitted; positions and times are rational numbers; `Math.random()` is an
oracle of draws consumed in call order.
-/

/-- A 3D position with rational coordinates, standing in for the rendering
library's vector of three numbers.  Only the components the game logic reads
are modelled. -/
structure V3 where
  x : ℚ
  y : ℚ
  z : ℚ
deriving DecidableEq

/-- Squared Euclidean distance between two positions.  The source compares
`a.distanceTo(b) < r` for a positive radius `r`; that comparison holds exactly
when the squared distance is below `r ^ 2`, which avoids square roots and
keeps the predicate decidable over the rationals. -/
def V3.distSq (a b : V3) : ℚ :=
  (a.x - b.x) ^ 2 + (a.y - b.y) ^ 2 + (a.z - b.z) ^ 2

/-- A `Math.random()` oracle is well formed when every draw lies in [0, 1),
as the JavaScript generator guarantees. -/
def RandOk (rs : ℕ → ℚ) : Prop := ∀ n, 0 ≤ rs n ∧ rs n < 1

/-- The x coordinate of a lane: the array `[-2, 0, 2]` (identical in both
implementations) indexed by a lane index.  The guarded lane moves never
produce an index outside [0, 3), so the default is never read on reachable
states. -/
def laneCoord (i : ℤ) : ℚ := [(-2 : ℚ), 0, 2].getD i.toNat 0

namespace MainGame

/-- The module-level `gameState` object of `src/client/main.ts`. -/
structure GameState where
  isPlaying : Bool
  isPaused : Bool
  score : ℤ
  speed : ℚ
  lives : ℤ
  gameOver : Bool
deriving DecidableEq

/-- The `Player` class: position (its z stays 0), vertical velocity, lane
bookkeeping and the grounded flag.  The x and z components of `velocity` are
never written or read. -/
structure Player where
  posX : ℚ
  posY : ℚ
  velY : ℚ
  currentLane : ℤ
  targetX : ℚ
  isGrounded : Bool
deriving DecidableEq

/-- The `Player` constructor: centre lane, on the ground at y = 0.6. -/
def Player.init : Player :=
  { posX := 0, posY := 3/5, velY := 0, currentLane := 1, targetX := 0, isGrounded := true }

/-- `Player.jump`: only from the ground; sets the fixed impulse 15 and leaves
the ground. -/
def Player.jump (p : Player) : Player :=
  if p.isGrounded then { p with velY := 15, isGrounded := false } else p

/-- `Player.moveLeft`: decrement the lane if not already at the left bound. -/
def Player.moveLeft (p : Player) : Player :=
  if 0 < p.currentLane then
    { p with currentLane := p.currentLane - 1, targetX := laneCoord (p.currentLane - 1) }
  else p

/-- `Player.moveRight`: increment the lane if not already at the right bound
(`lanes.length - 1 = 2`). -/
def Player.moveRight (p : Player) : Player :=
  if p.currentLane < 2 then
    { p with currentLane := p.currentLane + 1, targetX := laneCoord (p.currentLane + 1) }
  else p

/-- `Player.update`: proportional approach to the target lane x while the gap
exceeds 0.1, then gravity integration with clamp to the ground at y = 0.6. -/
def Player.update (dt : ℚ) (p : Player) : Player :=
  let dx := p.targetX - p.posX
  let p1 := if 1/10 < |dx| then { p with posX := p.posX + dx * 8 * dt } else p
  if !p1.isGrounded then
    let vy := p1.velY - 50 * dt
    let y := p1.posY + vy * dt
    if y ≤ 3/5 then { p1 with posY := 3/5, velY := 0, isGrounded := true }
    else { p1 with posY := y, velY := vy }
  else p1

/-- The player's mesh position as read by the collision checks. -/
def Player.pos (p : Player) : V3 := ⟨p.posX, p.posY, 0⟩

/-- The `Obstacle` class: mesh position and the scalar forward velocity
captured from `gameState.speed` at construction.  The cosmetic rotation is
omitted (never read by the game logic). -/
structure Obstacle where
  pos : V3
  vel : ℚ
deriving DecidableEq

/-- The `Obstacle` constructor `new Obstacle(lane, z)`: placed at the lane's
x, y = 0.75, the given z, with the current session speed. -/
def Obstacle.spawn (lane : ℤ) (z speed : ℚ) : Obstacle :=
  { pos := ⟨laneCoord lane, 3/4, z⟩, vel := speed }

/-- `Obstacle.update`: advance along z by the captured velocity. -/
def Obstacle.update (dt : ℚ) (o : Obstacle) : Obstacle :=
  { o with pos := { o.pos with z := o.pos.z + o.vel * dt } }

/-- The `Collectible` class, the mirror image of `Obstacle` at y = 1. -/
structure Collectible where
  pos : V3
  vel : ℚ
deriving DecidableEq

/-- The `Collectible` constructor: lane x, y = 1, given z, current speed. -/
def Collectible.spawn (lane : ℤ) (z speed : ℚ) : Collectible :=
  { pos := ⟨laneCoord lane, 1, z⟩, vel := speed }

/-- `Collectible.update`: advance along z by the captured velocity. -/
def Collectible.update (dt : ℚ) (c : Collectible) : Collectible :=
  { c with pos := { c.pos with z := c.pos.z + c.vel * dt } }

/-- The whole mutable module state of main.ts that the game loop touches:
session state, the player, the two active entity collections and the spawn
timer. -/
structure World where
  gameState : GameState
  player : Player
  obstacles : List Obstacle
  collectibles : List Collectible
  spawnTimer : ℚ
deriving DecidableEq

/-- The module constant `spawnInterval = 2.5`. -/
def spawnInterval : ℚ := 5/2

/-- `startGame`: raise the playing flag, reset score, lives, speed and the
spawn timer, and dispose and drop every active entity.  DOM and health-bar
side effects are external to the model. -/
def startGame (w : World) : World :=
  { w with
    gameState := { w.gameState with
      isPlaying := true, gameOver := false, score := 0, lives := 3, speed := 10 },
    spawnTimer := 0,
    obstacles := [],
    collectibles := [] }

/-- `gameOver`: flip the session flags (screen handling is external). -/
def setGameOver (gs : GameState) : GameState :=
  { gs with gameOver := true, isPlaying := false }

/-- Obstacles created by one `spawnObjects` call: with probability 0.7 one
random lane is spliced out of the available list and an obstacle is created
there at z = -50 capturing the current speed. -/
def newObstacles (rs : ℕ → ℚ) (speed : ℚ) : List Obstacle :=
  if rs 0 < 7/10 then
    [Obstacle.spawn ([0, 1, 2].getD (⌊rs 1 * 3⌋).toNat 0) (-50) speed]
  else []

/-- The lanes still available for collectibles after the obstacle splice. -/
def lanesLeft (rs : ℕ → ℚ) : List ℤ :=
  if rs 0 < 7/10 then [0, 1, 2].eraseIdx (⌊rs 1 * 3⌋).toNat else [0, 1, 2]

/-- Index of the first random draw the collectible pass consumes. -/
def drawsUsed (rs : ℕ → ℚ) : ℕ := if rs 0 < 7/10 then 2 else 1

/-- The `availableLanes.forEach` pass of `spawnObjects`: each remaining lane
receives a collectible with probability 0.6, one draw per lane. -/
def collectPass (rs : ℕ → ℚ) : ℕ → List ℤ → ℚ → List Collectible
  | _, [], _ => []
  | k, lane :: rest, speed =>
    if rs k < 3/5 then Collectible.spawn lane (-50) speed :: collectPass rs (k + 1) rest speed
    else collectPass rs (k + 1) rest speed

/-- `spawnObjects` of main.ts: push the new obstacle (if any) and then the
new collectibles, never reusing the obstacle's lane. -/
def spawnObjects (rs : ℕ → ℚ) (w : World) : World :=
  { w with
    obstacles := w.obstacles ++ newObstacles rs w.gameState.speed,
    collectibles := w.collectibles ++ collectPass rs (drawsUsed rs) (lanesLeft rs) w.gameState.speed }

/-- The obstacle hit test `playerPos.distanceTo(obstacle.mesh.position) < 1.0`
of `checkCollisions`, as a squared-distance comparison. -/
def obsHit (ppos : V3) (o : Obstacle) : Bool := decide (V3.distSq ppos o.pos < 1)

/-- The collectible hit test with pickup radius 0.8 (squared: 16/25). -/
def colHit (ppos : V3) (c : Collectible) : Bool := decide (V3.distSq ppos c.pos < 16/25)

/-- The backwards obstacle loop of `checkCollisions`, taken on the reversed
list so that its head is the highest index, which the loop scans first.  A
hit deducts a life and splices the obstacle out; if lives then reach 0 the
source calls `gameOver()` and returns at once, leaving the lower indices
(here the tail `rest`) untouched.  Returns the remaining obstacles (still
reversed), the lives, and whether game over was triggered. -/
def scanObstacles (ppos : V3) : List Obstacle → ℤ → List Obstacle × ℤ × Bool
  | [], l => ([], l, false)
  | o :: rest, l =>
    if obsHit ppos o then
      if l - 1 ≤ 0 then (rest, l - 1, true)
      else scanObstacles ppos rest (l - 1)
    else
      let r := scanObstacles ppos rest l
      (o :: r.1, r.2.1, r.2.2)

/-- The backwards collectible loop of `checkCollisions`: each hit removes the
collectible and adds 10 to the score. -/
def scanCollectibles (ppos : V3) : List Collectible → ℤ → List Collectible × ℤ
  | [], s => ([], s)
  | c :: rest, s =>
    if colHit ppos c then scanCollectibles ppos rest (s + 10)
    else
      let r := scanCollectibles ppos rest s
      (c :: r.1, r.2)

/-- `checkCollisions` of main.ts.  The early `return` after `gameOver()`
skips the collectible pass entirely. -/
def checkCollisions (w : World) : World :=
  match scanObstacles w.player.pos w.obstacles.reverse w.gameState.lives with
  | (obsRev, lives1, true) =>
    { w with obstacles := obsRev.reverse,
             gameState := setGameOver { w.gameState with lives := lives1 } }
  | (obsRev, lives1, false) =>
    match scanCollectibles w.player.pos w.collectibles.reverse w.gameState.score with
    | (colsRev, score1) =>
      { w with obstacles := obsRev.reverse, collectibles := colsRev.reverse,
               gameState := { w.gameState with lives := lives1, score := score1 } }

/-- One array traversal as JavaScript `forEach` runs it: the iteration count
is the length captured on entry, the callback updates the visited element in
place and, when it has crossed z = 10, splices it out at the visited index;
an index at or past the current length is skipped (the in-bounds check of
`forEach`).  Splicing at the visited index shifts the next element into the
already-visited slot, so that element is never visited.  This models the
forward update-and-cull loops of `animate` in main.ts for both entity kinds
(the source duplicates the loop body verbatim for the two arrays). -/
def forEachCull {α : Type} (upd : ℚ → α → α) (getZ : α → ℚ) (dt : ℚ) :
    ℕ → ℕ → List α → List α
  | 0, _, arr => arr
  | n + 1, k, arr =>
    match arr.get? k with
    | none => forEachCull upd getZ dt n (k + 1) arr
    | some o =>
      let o1 := upd dt o
      let arr1 := arr.set k o1
      if 10 < getZ o1 then forEachCull upd getZ dt n (k + 1) (arr1.eraseIdx k)
      else forEachCull upd getZ dt n (k + 1) arr1

/-- The obstacle update-and-cull pass of `animate`. -/
def cullObstacles (dt : ℚ) (l : List Obstacle) : List Obstacle :=
  forEachCull Obstacle.update (fun o => o.pos.z) dt l.length 0 l

/-- The collectible update-and-cull pass of `animate`. -/
def cullCollectibles (dt : ℚ) (l : List Collectible) : List Collectible :=
  forEachCull Collectible.update (fun c => c.pos.z) dt l.length 0 l

/-- The spawn block of `animate`: the frame time accumulates into the timer;
once the timer reaches the interval the source spawns first and only then
resets the timer and raises the speed by 0.1, so the new entities capture the
pre-increment speed. -/
def spawnSection (rs : ℕ → ℚ) (dt : ℚ) (w : World) : World :=
  let t := w.spawnTimer + dt
  if spawnInterval ≤ t then
    let w1 := spawnObjects rs w
    { w1 with spawnTimer := 0,
              gameState := { w1.gameState with speed := w1.gameState.speed + 1/10 } }
  else { w with spawnTimer := t }

/-- The per-frame game work of `animate` (rendering and UI are external):
while playing and not game over, update the player, update and cull both
entity collections, run the spawn block, resolve collisions, and add the
passive survival score.  Otherwise the frame leaves the state untouched. -/
def frame (rs : ℕ → ℚ) (dt : ℚ) (w : World) : World :=
  if w.gameState.isPlaying && !w.gameState.gameOver then
    let w1 := { w with player := Player.update dt w.player,
                       obstacles := cullObstacles dt w.obstacles,
                       collectibles := cullCollectibles dt w.collectibles }
    let w2 := spawnSection rs dt w1
    let w3 := checkCollisions w2
    { w3 with gameState := { w3.gameState with score := w3.gameState.score + ⌊dt * 5⌋ } }
  else w

end MainGame

namespace Enhanced

/-- The `GameState` interface of `enhanced-runner-game.ts`. -/
structure GameState where
  isPlaying : Bool
  isPaused : Bool
  score : ℤ
  speed : ℚ
  lives : ℤ
  gameOver : Bool
  theme : String
deriving DecidableEq

/-- The `EnhancedPlayer` class: same lane and jump bookkeeping as main.ts.
The sparkler trail, jump particles and the wall-clock running animation are
cosmetic and omitted. -/
structure Player where
  posX : ℚ
  posY : ℚ
  velY : ℚ
  currentLane : ℤ
  targetX : ℚ
  isGrounded : Bool
deriving DecidableEq

/-- The `EnhancedPlayer` constructor: centre lane, position (0, 1, 0). -/
def Player.init : Player :=
  { posX := 0, posY := 1, velY := 0, currentLane := 1, targetX := 0, isGrounded := true }

/-- `EnhancedPlayer.jump`: the fixed impulse `jumpForce = 15`, only from the
ground (the jump sparkle effect is external). -/
def Player.jump (p : Player) : Player :=
  if p.isGrounded then { p with velY := 15, isGrounded := false } else p

/-- `EnhancedPlayer.moveLeft`. -/
def Player.moveLeft (p : Player) : Player :=
  if 0 < p.currentLane then
    { p with currentLane := p.currentLane - 1, targetX := laneCoord (p.currentLane - 1) }
  else p

/-- `EnhancedPlayer.moveRight` (`lanes.length - 1 = 2`). -/
def Player.moveRight (p : Player) : Player :=
  if p.currentLane < 2 then
    { p with currentLane := p.currentLane + 1, targetX := laneCoord (p.currentLane + 1) }
  else p

/-- `EnhancedPlayer.update`: like main.ts but snapping x to the target once
within 0.1, with `gravity = -50`, `moveSpeed = 8` and ground clamp at
`groundY + 0.6 = 0.6`. -/
def Player.update (dt : ℚ) (p : Player) : Player :=
  let dx := p.targetX - p.posX
  let p1 := if 1/10 < |dx| then { p with posX := p.posX + dx * 8 * dt }
            else { p with posX := p.targetX }
  if !p1.isGrounded then
    let vy := p1.velY + (-50) * dt
    let y := p1.posY + vy * dt
    if y ≤ 0 + 3/5 then { p1 with posY := 3/5, velY := 0, isGrounded := true }
    else { p1 with posY := y, velY := vy }
  else p1

/-- The player's mesh position as read by the collision checks (z stays 0). -/
def Player.pos (p : Player) : V3 := ⟨p.posX, p.posY, 0⟩

/-- The four Diwali collectible kinds of `DiwaliCollectible`. -/
inductive CType
  | coin
  | diya
  | phooljhadi
  | rangoli
deriving DecidableEq

/-- `DiwaliCollectible.getValue`: the per-kind score values. -/
def CType.value : CType → ℤ
  | CType.coin => 10
  | CType.diya => 25
  | CType.phooljhadi => 15
  | CType.rangoli => 30

/-- The random kind pick `types[Math.floor(Math.random() * types.length)]`;
draws in [0, 1) yield an index at most 3. -/
def ctypeOfDraw (r : ℚ) : CType :=
  match (⌊r * 4⌋).toNat with
  | 0 => CType.coin
  | 1 => CType.diya
  | 2 => CType.phooljhadi
  | _ => CType.rangoli

/-- The `DiwaliObstacle` class: position and the z component of its velocity
vector (x and y stay 0; the glow light and rotation are cosmetic). -/
structure Obstacle where
  pos : V3
  velZ : ℚ
deriving DecidableEq

/-- An obstacle as `spawnObjects` produces it: the constructor places it at
the lane's x, y = 0.75 and the given z, and the caller immediately sets
`velocity.z` to the current session speed. -/
def Obstacle.spawn (lane : ℤ) (z speed : ℚ) : Obstacle :=
  { pos := ⟨laneCoord lane, 3/4, z⟩, velZ := speed }

/-- `DiwaliObstacle.update`: advance along z by `velocity.z`. -/
def Obstacle.update (dt : ℚ) (o : Obstacle) : Obstacle :=
  { o with pos := { o.pos with z := o.pos.z + o.velZ * dt } }

/-- The `DiwaliCollectible` class: position, the z velocity set by the
spawner, and the kind. -/
structure Collectible where
  pos : V3
  velZ : ℚ
  ctype : CType
deriving DecidableEq

/-- A collectible as `spawnObjects` produces it: lane x, y = 1, given z and
kind, with `velocity.z` set to the current speed by the caller. -/
def Collectible.spawn (lane : ℤ) (z : ℚ) (t : CType) (speed : ℚ) : Collectible :=
  { pos := ⟨laneCoord lane, 1, z⟩, velZ := speed, ctype := t }

/-- `DiwaliCollectible.update`: advance along z.  The wall-clock (`Date.now`)
bobbing of y and the per-kind cosmetic animations are external and omitted;
no claim reads the bobbed y. -/
def Collectible.update (dt : ℚ) (c : Collectible) : Collectible :=
  { c with pos := { c.pos with z := c.pos.z + c.velZ * dt } }

/-- The private fields of `EnhancedRunnerGame` that the game logic touches:
the session state, the player, the two collections, the spawn timer, and the
mutable `spawnInterval` (it decays over time and `startGame` does not reset
it). -/
structure World where
  gameState : GameState
  player : Player
  obstacles : List Obstacle
  collectibles : List Collectible
  spawnTimer : ℚ
  spawnInterval : ℚ
deriving DecidableEq

/-- `startGame`: raise the playing flag, clear pause and game over, reset
score, speed, lives and the spawn timer, and clear both collections
(`clearGameObjects` disposes each entity and empties the arrays). -/
def startGame (w : World) : World :=
  { w with
    gameState := { w.gameState with
      isPlaying := true, isPaused := false, gameOver := false,
      score := 0, speed := 10, lives := 3 },
    spawnTimer := 0,
    obstacles := [],
    collectibles := [] }

/-- `stopGame`: lower the playing flag, raise game over and clear both
collections via `clearGameObjects`. -/
def stopGame (w : World) : World :=
  { w with gameState := { w.gameState with isPlaying := false, gameOver := true },
           obstacles := [],
           collectibles := [] }

/-- The obstacle splice loop of the enhanced `spawnObjects`: up to `count`
iterations while lanes remain; draw `k` picks the index to splice out, and
each obstacle captures the current speed in `velocity.z`.  Returns the new
obstacles in creation order, the remaining lanes and the next draw index. -/
def spliceObstacles (rs : ℕ → ℚ) (speed : ℚ) :
    ℕ → ℕ → List ℤ → List Obstacle × List ℤ × ℕ
  | 0, k, avail => ([], avail, k)
  | n + 1, k, avail =>
    if avail.isEmpty then ([], avail, k)
    else
      let idx := (⌊rs k * avail.length⌋).toNat
      let lane := avail.getD idx 0
      let r := spliceObstacles rs speed n (k + 1) (avail.eraseIdx idx)
      (Obstacle.spawn lane (-50) speed :: r.1, r.2.1, r.2.2)

/-- The collectible pass of the enhanced `spawnObjects`: each remaining lane
receives a collectible with probability 0.7, consuming one draw for the
chance and one more for the kind. -/
def collectPass (rs : ℕ → ℚ) : ℕ → List ℤ → ℚ → List Collectible
  | _, [], _ => []
  | k, lane :: rest, speed =>
    if rs k < 7/10 then
      Collectible.spawn lane (-50) (ctypeOfDraw (rs (k + 1))) speed
        :: collectPass rs (k + 2) rest speed
    else collectPass rs (k + 1) rest speed

/-- The enhanced `spawnObjects`: draw 0 decides one or two obstacles, the
splice loop takes their lanes out of the available set, and collectibles are
then offered only the remaining lanes. -/
def spawnObjects (rs : ℕ → ℚ) (w : World) : World :=
  let count : ℕ := if rs 0 < 3/5 then 1 else 2
  let r := spliceObstacles rs w.gameState.speed count 1 [0, 1, 2]
  { w with obstacles := w.obstacles ++ r.1,
           collectibles := w.collectibles ++ collectPass rs r.2.2 r.2.1 w.gameState.speed }

/-- The obstacle hit test `distance < 1` of the enhanced `checkCollisions`. -/
def obsHit (ppos : V3) (o : Obstacle) : Bool := decide (V3.distSq ppos o.pos < 1)

/-- The collectible hit test `distance < 0.8` (squared: 16/25). -/
def colHit (ppos : V3) (c : Collectible) : Bool := decide (V3.distSq ppos c.pos < 16/25)

/-- The backwards obstacle loop of the enhanced `checkCollisions`, on the
reversed list (head = highest index, scanned first).  A hit deducts a life
and splices the obstacle out; when lives reach 0 the source calls
`stopGame()`, which empties both collections — but unlike main.ts the loop
does not return, so the next iteration reads `this.obstacles[i]` of the
now-empty array and the `.mesh` access throws a TypeError whenever unscanned
lower indices remained (nonempty `rest`).  A game-over deeper in the scan
also wipes survivors kept so far, because `stopGame` reassigned the array.
Returns (remaining obstacles (reversed), lives, game over triggered,
TypeError thrown). -/
def scanObstacles (ppos : V3) : List Obstacle → ℤ → List Obstacle × ℤ × Bool × Bool
  | [], l => ([], l, false, false)
  | o :: rest, l =>
    if obsHit ppos o then
      if l - 1 ≤ 0 then ([], l - 1, true, !rest.isEmpty)
      else scanObstacles ppos rest (l - 1)
    else
      let r := scanObstacles ppos rest l
      (if r.2.2.1 then [] else o :: r.1, r.2.1, r.2.2.1, r.2.2.2)

/-- The backwards collectible loop of the enhanced `checkCollisions`: each
hit removes the collectible and adds its kind's value to the score. -/
def scanCollectibles (ppos : V3) : List Collectible → ℤ → List Collectible × ℤ
  | [], s => ([], s)
  | c :: rest, s =>
    if colHit ppos c then scanCollectibles ppos rest (s + c.ctype.value)
    else
      let r := scanCollectibles ppos rest s
      (c :: r.1, r.2)

/-- The enhanced `checkCollisions`: the obstacle pass, then — unless the
TypeError aborted the frame — the collectible pass.  When game over was
triggered, `stopGame` has already emptied both collections, so the
collectible pass scans nothing.  The Bool reports the escaped TypeError;
all mutations made before the throw remain visible in the state. -/
def checkCollisions (w : World) : World × Bool :=
  match scanObstacles w.player.pos w.obstacles.reverse w.gameState.lives with
  | (obsRev, lives1, true, thrown) =>
    ({ w with obstacles := obsRev.reverse,
              collectibles := [],
              gameState := { w.gameState with
                lives := lives1, isPlaying := false, gameOver := true } },
     thrown)
  | (obsRev, lives1, false, _) =>
    match scanCollectibles w.player.pos w.collectibles.reverse w.gameState.score with
    | (colsRev, score1) =>
      ({ w with obstacles := obsRev.reverse, collectibles := colsRev.reverse,
                gameState := { w.gameState with lives := lives1, score := score1 } },
       false)

/-- The backwards update-and-cull obstacle loop of the enhanced `update`:
reverse index order with splice-at-i visits every element exactly once, so it
is elementwise structural recursion — update, then drop if past z = 10. -/
def cullObstacles (dt : ℚ) : List Obstacle → List Obstacle
  | [] => []
  | o :: rest =>
    let o1 := Obstacle.update dt o
    if 10 < o1.pos.z then cullObstacles dt rest
    else o1 :: cullObstacles dt rest

/-- The backwards update-and-cull collectible loop of the enhanced `update`. -/
def cullCollectibles (dt : ℚ) : List Collectible → List Collectible
  | [] => []
  | c :: rest =>
    let c1 := Collectible.update dt c
    if 10 < c1.pos.z then cullCollectibles dt rest
    else c1 :: cullCollectibles dt rest

/-- The enhanced spawn block: on reaching the interval the source spawns
first (capturing the pre-increment speed), then resets the timer, raises the
speed by 0.1 and decays the interval towards its floor of 1.2. -/
def spawnSection (rs : ℕ → ℚ) (dt : ℚ) (w : World) : World :=
  let t := w.spawnTimer + dt
  if w.spawnInterval ≤ t then
    let w1 := spawnObjects rs w
    { w1 with spawnTimer := 0,
              gameState := { w1.gameState with speed := w1.gameState.speed + 1/10 },
              spawnInterval := max (6/5) (w1.spawnInterval - 1/50) }
  else { w with spawnTimer := t }

/-- The enhanced per-frame `update(deltaTime)`: nothing happens unless
playing and unpaused; otherwise player update, the two cull passes, the
spawn block, collision resolution and the survival score.  The Bool reports
whether the frame aborted with the collision TypeError, in which case the
survival score line never runs but every earlier mutation stays. -/
def update (rs : ℕ → ℚ) (dt : ℚ) (w : World) : World × Bool :=
  if !w.gameState.isPlaying || w.gameState.isPaused then (w, false)
  else
    let w1 := { w with player := Player.update dt w.player,
                       obstacles := cullObstacles dt w.obstacles,
                       collectibles := cullCollectibles dt w.collectibles }
    let w2 := spawnSection rs dt w1
    match checkCollisions w2 with
    | (w3, true) => (w3, true)
    | (w3, false) =>
      ({ w3 with gameState := { w3.gameState with score := w3.gameState.score + ⌊dt * 5⌋ } },
       false)

end Enhanced

/-- A lane-change command, for stating properties over arbitrary command
sequences delivered by the input source. -/
inductive LaneCmd
  | left
  | right
deriving DecidableEq

/-- Apply one lane command to the main.ts player. -/
def MainGame.applyCmd : LaneCmd → MainGame.Player → MainGame.Player
  | LaneCmd.left, p => p.moveLeft
  | LaneCmd.right, p => p.moveRight

/-- Apply a sequence of lane commands, oldest first, to the main.ts player. -/
def MainGame.applyCmds (cs : List LaneCmd) (p : MainGame.Player) : MainGame.Player :=
  cs.foldl (fun q c => MainGame.applyCmd c q) p

/-- Apply one lane command to the enhanced player. -/
def Enhanced.applyCmd : LaneCmd → Enhanced.Player → Enhanced.Player
  | LaneCmd.left, p => p.moveLeft
  | LaneCmd.right, p => p.moveRight

/-- Apply a sequence of lane commands, oldest first, to the enhanced player. -/
def Enhanced.applyCmds (cs : List LaneCmd) (p : Enhanced.Player) : Enhanced.Player :=
  cs.foldl (fun q c => Enhanced.applyCmd c q) p

/-- Reference definition following claim C6's stated order for the spawn
block: reset the timer and raise the speed by the fixed increment first, and
only then create the tick's entities — which therefore capture the raised
speed.  Compared against `MainGame.spawnSection`, which spawns first. -/
def MainGame.spawnSectionClaim (rs : ℕ → ℚ) (dt : ℚ) (w : MainGame.World) : MainGame.World :=
  let t := w.spawnTimer + dt
  if MainGame.spawnInterval ≤ t then
    MainGame.spawnObjects rs
      { w with spawnTimer := 0,
               gameState := { w.gameState with speed := w.gameState.speed + 1/10 } }
  else { w with spawnTimer := t }

/-- Reference definition following claim C9's stated removal discipline (no
entity skipped or double-processed): update every member exactly once, then
remove exactly those past the despawn threshold.  Compared against
`MainGame.cullObstacles`, whose forward forEach-with-splice can skip. -/
def MainGame.cullObstaclesClaim (dt : ℚ) (l : List MainGame.Obstacle) : List MainGame.Obstacle :=
  (l.map (MainGame.Obstacle.update dt)).filter fun o => !decide (10 < o.pos.z)

/-- A constant half oracle: every draw is 1/2 (a legal `Math.random` value). -/
def rsHalf : ℕ → ℚ := fun _ => 1/2

/-- A constant zero oracle: every draw is 0 (a legal `Math.random` value). -/
def rsZero : ℕ → ℚ := fun _ => 0

/-- A main.ts world in the idle state, as after module initialisation. -/
def idleMain : MainGame.World :=
  { gameState := { isPlaying := false, isPaused := false, score := 0, speed := 10,
                   lives := 3, gameOver := false },
    player := MainGame.Player.init,
    obstacles := [], collectibles := [], spawnTimer := 0 }

/-- A main.ts world on its last life with one obstacle and one collectible
sitting on the player, used to exercise the game-over path. -/
def lastLifeMain : MainGame.World :=
  { gameState := { isPlaying := true, isPaused := false, score := 0, speed := 10,
                   lives := 1, gameOver := false },
    player := MainGame.Player.init,
    obstacles := [{ pos := ⟨0, 3/5, 0⟩, vel := 0 }],
    collectibles := [{ pos := ⟨0, 3/5, 0⟩, vel := 0 }],
    spawnTimer := 0 }

/-- An enhanced world in the idle state, as after construction. -/
def idleEnh : Enhanced.World :=
  { gameState := { isPlaying := false, isPaused := false, score := 0, speed := 10,
                   lives := 3, gameOver := false, theme := "diwali-night" },
    player := Enhanced.Player.init,
    obstacles := [], collectibles := [], spawnTimer := 0, spawnInterval := 2 }

/-- An enhanced world on its last life with two obstacles sitting on the
player: the second hit of the frame arrives after `stopGame` has emptied the
array, so the collision loop dereferences an undefined element. -/
def crashEnh : Enhanced.World :=
  { gameState := { isPlaying := true, isPaused := false, score := 0, speed := 10,
                   lives := 1, gameOver := false, theme := "diwali-night" },
    player := Enhanced.Player.init,
    obstacles := [{ pos := ⟨0, 1, 0⟩, velZ := 0 }, { pos := ⟨0, 1, 0⟩, velZ := 0 }],
    collectibles := [], spawnTimer := 0, spawnInterval := 2 }

/-- A paused enhanced world with some entities in flight. -/
def pausedEnh : Enhanced.World :=
  { gameState := { isPlaying := true, isPaused := true, score := 42, speed := 12,
                   lives := 2, gameOver := false, theme := "diwali-night" },
    player := Enhanced.Player.init,
    obstacles := [{ pos := ⟨2, 3/4, -8⟩, velZ := 12 }],
    collectibles := [{ pos := ⟨0, 1, -4⟩, velZ := 12, ctype := Enhanced.CType.diya }],
    spawnTimer := 1, spawnInterval := 2 }

/-- An obstacle one unit short of the despawn threshold, moving fast enough
to cross it in one frame of one second. -/
def nearGoneObstacle : MainGame.Obstacle := { pos := ⟨0, 3/4, 9⟩, vel := 2 }

/-- A main.ts world mid-run: an obstacle and a collectible in flight, none
near the player or the despawn threshold. -/
def cruisingMain : MainGame.World :=
  { gameState := { isPlaying := true, isPaused := false, score := 5, speed := 10,
                   lives := 3, gameOver := false },
    player := MainGame.Player.init,
    obstacles := [{ pos := ⟨2, 3/4, -8⟩, vel := 10 }],
    collectibles := [{ pos := ⟨-2, 1, -4⟩, vel := 10 }],
    spawnTimer := 0 }

/-- An enhanced world mid-run, the mirror of `cruisingMain`. -/
def cruisingEnh : Enhanced.World :=
  { gameState := { isPlaying := true, isPaused := false, score := 5, speed := 10,
                   lives := 3, gameOver := false, theme := "diwali-night" },
    player := Enhanced.Player.init,
    obstacles := [{ pos := ⟨2, 3/4, -8⟩, velZ := 10 }],
    collectibles := [{ pos := ⟨-2, 1, -4⟩, velZ := 10, ctype := Enhanced.CType.coin }],
    spawnTimer := 0, spawnInterval := 2 }

/-- A main.ts player sitting at the left bound lane. -/
def leftBoundMain : MainGame.Player :=
  { posX := -2, posY := 3/5, velY := 0, currentLane := 0, targetX := -2, isGrounded := true }

/-- A main.ts player sitting at the right bound lane. -/
def rightBoundMain : MainGame.Player :=
  { posX := 2, posY := 3/5, velY := 0, currentLane := 2, targetX := 2, isGrounded := true }

/-- An enhanced player sitting at the left bound lane. -/
def leftBoundEnh : Enhanced.Player :=
  { posX := -2, posY := 1, velY := 0, currentLane := 0, targetX := -2, isGrounded := true }

/-- An enhanced player sitting at the right bound lane. -/
def rightBoundEnh : Enhanced.Player :=
  { posX := 2, posY := 1, velY := 0, currentLane := 2, targetX := 2, isGrounded := true }

/-- Claim C5: starting or restarting a game, from any state whatsoever,
resets score to 0, lives to 3, speed to the base speed 10 and the spawn
timer to 0, raises the playing flag, clears game over, and empties both
active entity collections, in both implementations. -/
theorem C5_start_resets :
    (∀ w : MainGame.World,
       (MainGame.startGame w).gameState.score = 0 ∧
       (MainGame.startGame w).gameState.lives = 3 ∧
       (MainGame.startGame w).gameState.speed = 10 ∧
       (MainGame.startGame w).spawnTimer = 0 ∧
       (MainGame.startGame w).obstacles = [] ∧
       (MainGame.startGame w).collectibles = [] ∧
       (MainGame.startGame w).gameState.isPlaying = true ∧
       (MainGame.startGame w).gameState.gameOver = false) ∧
    (∀ w : Enhanced.World,
       (Enhanced.startGame w).gameState.score = 0 ∧
       (Enhanced.startGame w).gameState.lives = 3 ∧
       (Enhanced.startGame w).gameState.speed = 10 ∧
       (Enhanced.startGame w).spawnTimer = 0 ∧
       (Enhanced.startGame w).obstacles = [] ∧
       (Enhanced.startGame w).collectibles = [] ∧
       (Enhanced.startGame w).gameState.isPlaying = true ∧
       (Enhanced.startGame w).gameState.gameOver = false) :=
  ⟨fun _ => ⟨rfl, rfl, rfl, rfl, rfl, rfl, rfl, rfl⟩,
   fun _ => ⟨rfl, rfl, rfl, rfl, rfl, rfl, rfl, rfl⟩⟩

/-- Helper: one lane command keeps the main.ts lane index inside [0, 2]. -/
theorem mainLane_step (c : LaneCmd) (p : MainGame.Player)
    (h0 : 0 ≤ p.currentLane) (h2 : p.currentLane ≤ 2) :
    0 ≤ (MainGame.applyCmd c p).currentLane ∧ (MainGame.applyCmd c p).currentLane ≤ 2 := by
  cases c with
  | left =>
    simp only [MainGame.applyCmd, MainGame.Player.moveLeft]
    split
    next h =>
      refine ⟨?_, ?_⟩
      · show 0 ≤ p.currentLane - 1
        omega
      · show p.currentLane - 1 ≤ 2
        omega
    next h => exact ⟨h0, h2⟩
  | right =>
    simp only [MainGame.applyCmd, MainGame.Player.moveRight]
    split
    next h =>
      refine ⟨?_, ?_⟩
      · show 0 ≤ p.currentLane + 1
        omega
      · show p.currentLane + 1 ≤ 2
        omega
    next h => exact ⟨h0, h2⟩

/-- Helper: any command sequence keeps the main.ts lane index inside [0, 2]. -/
theorem mainLane_cmds (cs : List LaneCmd) :
    ∀ p : MainGame.Player, 0 ≤ p.currentLane → p.currentLane ≤ 2 →
      0 ≤ (MainGame.applyCmds cs p).currentLane ∧ (MainGame.applyCmds cs p).currentLane ≤ 2 := by
  induction cs with
  | nil => exact fun p h0 h2 => ⟨h0, h2⟩
  | cons c cs ih =>
    intro p h0 h2
    have h := mainLane_step c p h0 h2
    simpa [MainGame.applyCmds, List.foldl] using ih (MainGame.applyCmd c p) h.1 h.2

/-- Helper: one lane command keeps the enhanced lane index inside [0, 2]. -/
theorem enhLane_step (c : LaneCmd) (p : Enhanced.Player)
    (h0 : 0 ≤ p.currentLane) (h2 : p.currentLane ≤ 2) :
    0 ≤ (Enhanced.applyCmd c p).currentLane ∧ (Enhanced.applyCmd c p).currentLane ≤ 2 := by
  cases c with
  | left =>
    simp only [Enhanced.applyCmd, Enhanced.Player.moveLeft]
    split
    next h =>
      refine ⟨?_, ?_⟩
      · show 0 ≤ p.currentLane - 1
        omega
      · show p.currentLane - 1 ≤ 2
        omega
    next h => exact ⟨h0, h2⟩
  | right =>
    simp only [Enhanced.applyCmd, Enhanced.Player.moveRight]
    split
    next h =>
      refine ⟨?_, ?_⟩
      · show 0 ≤ p.currentLane + 1
        omega
      · show p.currentLane + 1 ≤ 2
        omega
    next h => exact ⟨h0, h2⟩

/-- Helper: any command sequence keeps the enhanced lane index inside [0, 2]. -/
theorem enhLane_cmds (cs : List LaneCmd) :
    ∀ p : Enhanced.Player, 0 ≤ p.currentLane → p.currentLane ≤ 2 →
      0 ≤ (Enhanced.applyCmds cs p).currentLane ∧ (Enhanced.applyCmds cs p).currentLane ≤ 2 := by
  induction cs with
  | nil => exact fun p h0 h2 => ⟨h0, h2⟩
  | cons c cs ih =>
    intro p h0 h2
    have h := enhLane_step c p h0 h2
    simpa [Enhanced.applyCmds, List.foldl] using ih (Enhanced.applyCmd c p) h.1 h.2

/-- Claim C7: from the initial centre lane, every sequence of move commands
keeps the lane index within [0, laneCount-1] = [0, 2]; and a move call at a
bound lane is a complete no-op on the player (lane index and target position
unchanged), not an error — in both implementations. -/
theorem C7_lane_bounds :
    (∀ cs : List LaneCmd,
       0 ≤ (MainGame.applyCmds cs MainGame.Player.init).currentLane ∧
       (MainGame.applyCmds cs MainGame.Player.init).currentLane ≤ 2) ∧
    (∀ cs : List LaneCmd,
       0 ≤ (Enhanced.applyCmds cs Enhanced.Player.init).currentLane ∧
       (Enhanced.applyCmds cs Enhanced.Player.init).currentLane ≤ 2) ∧
    (∀ p : MainGame.Player, p.currentLane = 0 → p.moveLeft = p) ∧
    (∀ p : MainGame.Player, p.currentLane = 2 → p.moveRight = p) ∧
    (∀ p : Enhanced.Player, p.currentLane = 0 → p.moveLeft = p) ∧
    (∀ p : Enhanced.Player, p.currentLane = 2 → p.moveRight = p) := by
  refine ⟨fun cs => mainLane_cmds cs _ (by norm_num [MainGame.Player.init])
            (by norm_num [MainGame.Player.init]),
          fun cs => enhLane_cmds cs _ (by norm_num [Enhanced.Player.init])
            (by norm_num [Enhanced.Player.init]),
          ?_, ?_, ?_, ?_⟩
  · intro p h
    simp [MainGame.Player.moveLeft, h]
  · intro p h
    simp [MainGame.Player.moveRight, h]
  · intro p h
    simp [Enhanced.Player.moveLeft, h]
  · intro p h
    simp [Enhanced.Player.moveRight, h]

/-- Witness for C7: a short command sequence from the centre, and the bound
players on which a further outward move does nothing. -/
theorem C7_witness :
    (0 ≤ (MainGame.applyCmds [LaneCmd.left, LaneCmd.left] MainGame.Player.init).currentLane ∧
      (MainGame.applyCmds [LaneCmd.left, LaneCmd.left] MainGame.Player.init).currentLane ≤ 2) ∧
    (0 ≤ (Enhanced.applyCmds [LaneCmd.right, LaneCmd.right] Enhanced.Player.init).currentLane ∧
      (Enhanced.applyCmds [LaneCmd.right, LaneCmd.right] Enhanced.Player.init).currentLane ≤ 2) ∧
    (leftBoundMain.currentLane = 0 ∧ leftBoundMain.moveLeft = leftBoundMain) ∧
    (rightBoundMain.currentLane = 2 ∧ rightBoundMain.moveRight = rightBoundMain) ∧
    (leftBoundEnh.currentLane = 0 ∧ leftBoundEnh.moveLeft = leftBoundEnh) ∧
    (rightBoundEnh.currentLane = 2 ∧ rightBoundEnh.moveRight = rightBoundEnh) :=
  ⟨C7_lane_bounds.1 [LaneCmd.left, LaneCmd.left],
   C7_lane_bounds.2.1 [LaneCmd.right, LaneCmd.right],
   ⟨rfl, C7_lane_bounds.2.2.1 leftBoundMain rfl⟩,
   ⟨rfl, C7_lane_bounds.2.2.2.1 rightBoundMain rfl⟩,
   ⟨rfl, C7_lane_bounds.2.2.2.2.1 leftBoundEnh rfl⟩,
   ⟨rfl, C7_lane_bounds.2.2.2.2.2 rightBoundEnh rfl⟩⟩

/-- Claim C8: from the ground, `jump` sets the vertical velocity to the
fixed impulse 15 and clears the grounded flag; a second `jump` before
landing changes nothing, so two consecutive jumps equal one — in both
implementations. -/
theorem C8_single_jump :
    (∀ p : MainGame.Player, p.jump.jump = p.jump) ∧
    (∀ p : Enhanced.Player, p.jump.jump = p.jump) ∧
    (∀ p : MainGame.Player, p.isGrounded = true →
       p.jump.velY = 15 ∧ p.jump.isGrounded = false) ∧
    (∀ p : Enhanced.Player, p.isGrounded = true →
       p.jump.velY = 15 ∧ p.jump.isGrounded = false) := by
  refine ⟨?_, ?_, ?_, ?_⟩
  · intro p
    by_cases h : p.isGrounded <;> simp [MainGame.Player.jump, h]
  · intro p
    by_cases h : p.isGrounded <;> simp [Enhanced.Player.jump, h]
  · intro p h
    simp [MainGame.Player.jump, h]
  · intro p h
    simp [Enhanced.Player.jump, h]

/-- Witness for C8 at the freshly constructed (grounded) players. -/
theorem C8_witness :
    (MainGame.Player.init.isGrounded = true ∧
      MainGame.Player.init.jump.velY = 15 ∧ MainGame.Player.init.jump.isGrounded = false) ∧
    (Enhanced.Player.init.isGrounded = true ∧
      Enhanced.Player.init.jump.velY = 15 ∧ Enhanced.Player.init.jump.isGrounded = false) :=
  ⟨⟨rfl, C8_single_jump.2.2.1 MainGame.Player.init rfl⟩,
   ⟨rfl, C8_single_jump.2.2.2 Enhanced.Player.init rfl⟩⟩

/-- Claim C10: when the session is not playing (main.ts) — or not playing or
paused (enhanced) — the per-frame update leaves the whole world untouched:
session state, player and both entity collections. -/
theorem C10_inactive_update_identity :
    (∀ (rs : ℕ → ℚ) (dt : ℚ) (w : MainGame.World), w.gameState.isPlaying = false →
       MainGame.frame rs dt w = w) ∧
    (∀ (rs : ℕ → ℚ) (dt : ℚ) (w : Enhanced.World),
       w.gameState.isPlaying = false ∨ w.gameState.isPaused = true →
       Enhanced.update rs dt w = (w, false)) := by
  constructor
  · intro rs dt w h
    simp [MainGame.frame, h]
  · intro rs dt w h
    rcases h with h | h <;> simp [Enhanced.update, h]

/-- Witness for C10: the idle main.ts world and a paused enhanced world with
entities in flight are both left exactly as they were. -/
theorem C10_witness :
    (idleMain.gameState.isPlaying = false ∧ MainGame.frame rsHalf 1 idleMain = idleMain) ∧
    ((pausedEnh.gameState.isPlaying = false ∨ pausedEnh.gameState.isPaused = true) ∧
      Enhanced.update rsHalf 1 pausedEnh = (pausedEnh, false)) :=
  ⟨⟨rfl, C10_inactive_update_identity.1 rsHalf 1 idleMain rfl⟩,
   ⟨Or.inr rfl, C10_inactive_update_identity.2 rsHalf 1 pausedEnh (Or.inr rfl)⟩⟩

/-- Helper: the main.ts obstacle scan only lowers lives; from at least one
life, triggering game over leaves exactly 0 lives, and not triggering leaves
at least one. -/
theorem mainScan_lives (ppos : V3) :
    ∀ (l : List MainGame.Obstacle) (lv : ℤ), 1 ≤ lv →
      (MainGame.scanObstacles ppos l lv).2.1 ≤ lv ∧
      ((MainGame.scanObstacles ppos l lv).2.2 = true →
        (MainGame.scanObstacles ppos l lv).2.1 = 0) ∧
      ((MainGame.scanObstacles ppos l lv).2.2 = false →
        1 ≤ (MainGame.scanObstacles ppos l lv).2.1) := by
  intro l
  induction l with
  | nil =>
    intro lv h
    refine ⟨le_rfl, fun hgo => ?_, fun _ => h⟩
    simp [MainGame.scanObstacles] at hgo
  | cons o rest ih =>
    intro lv h
    by_cases ho : MainGame.obsHit ppos o
    · by_cases h2 : lv - 1 ≤ 0
      · simp only [MainGame.scanObstacles, ho, if_true, h2]
        exact ⟨by omega, fun _ => by omega, fun hf => by simp at hf⟩
      · have hih := ih (lv - 1) (by omega)
        simp only [MainGame.scanObstacles, ho, if_true, h2, if_false]
        exact ⟨by have := hih.1; omega, hih.2.1, hih.2.2⟩
    · have hih := ih lv h
      simp only [MainGame.scanObstacles, ho]
      simpa using hih

/-- Helper: the enhanced obstacle scan has the same lives arithmetic. -/
theorem enhScan_lives (ppos : V3) :
    ∀ (l : List Enhanced.Obstacle) (lv : ℤ), 1 ≤ lv →
      (Enhanced.scanObstacles ppos l lv).2.1 ≤ lv ∧
      ((Enhanced.scanObstacles ppos l lv).2.2.1 = true →
        (Enhanced.scanObstacles ppos l lv).2.1 = 0) ∧
      ((Enhanced.scanObstacles ppos l lv).2.2.1 = false →
        1 ≤ (Enhanced.scanObstacles ppos l lv).2.1) := by
  intro l
  induction l with
  | nil =>
    intro lv h
    refine ⟨le_rfl, fun hgo => ?_, fun _ => h⟩
    simp [Enhanced.scanObstacles] at hgo
  | cons o rest ih =>
    intro lv h
    by_cases ho : Enhanced.obsHit ppos o
    · by_cases h2 : lv - 1 ≤ 0
      · simp only [Enhanced.scanObstacles, ho, if_true, h2]
        exact ⟨by omega, fun _ => by omega, fun hf => by simp at hf⟩
      · have hih := ih (lv - 1) (by omega)
        simp only [Enhanced.scanObstacles, ho, if_true, h2, if_false]
        exact ⟨by have := hih.1; omega, hih.2.1, hih.2.2⟩
    · have hih := ih lv h
      simp only [Enhanced.scanObstacles, ho]
      simpa using hih

/-- Helper: lives and flags through the main.ts collision resolution. -/
theorem mainCheck_lives (w : MainGame.World)
    (h1 : 1 ≤ w.gameState.lives) (h0 : w.gameState.gameOver = false) :
    (MainGame.checkCollisions w).gameState.lives ≤ w.gameState.lives ∧
    0 ≤ (MainGame.checkCollisions w).gameState.lives ∧
    ((MainGame.checkCollisions w).gameState.gameOver = true →
      (MainGame.checkCollisions w).gameState.lives = 0) ∧
    ((MainGame.checkCollisions w).gameState.gameOver = false →
      1 ≤ (MainGame.checkCollisions w).gameState.lives) := by
  have hs := mainScan_lives w.player.pos w.obstacles.reverse w.gameState.lives h1
  rcases hgo : MainGame.scanObstacles w.player.pos w.obstacles.reverse w.gameState.lives
    with ⟨obsRev, lives1, go⟩
  rw [hgo] at hs
  cases go with
  | true =>
    have hz : lives1 = 0 := hs.2.1 rfl
    simp only [MainGame.checkCollisions, hgo, MainGame.setGameOver]
    exact ⟨by have := hs.1; simpa using this, by simpa using hz.ge, fun _ => by simpa using hz,
      fun hf => by simp at hf⟩
  | false =>
    have hone : 1 ≤ lives1 := hs.2.2 rfl
    rcases hsc : MainGame.scanCollectibles w.player.pos w.collectibles.reverse w.gameState.score
      with ⟨colsRev, score1⟩
    simp only [MainGame.checkCollisions, hgo, hsc]
    exact ⟨by have := hs.1; simpa using this, by simpa using hone.trans' (by omega),
      fun hgo2 => by rw [h0] at hgo2; simp at hgo2, fun _ => by simpa using hone⟩

/-- Helper: lives and flags through the enhanced collision resolution. -/
theorem enhCheck_lives (w : Enhanced.World)
    (h1 : 1 ≤ w.gameState.lives) (h0 : w.gameState.gameOver = false) :
    (Enhanced.checkCollisions w).1.gameState.lives ≤ w.gameState.lives ∧
    0 ≤ (Enhanced.checkCollisions w).1.gameState.lives ∧
    ((Enhanced.checkCollisions w).1.gameState.gameOver = true →
      (Enhanced.checkCollisions w).1.gameState.lives = 0) ∧
    ((Enhanced.checkCollisions w).1.gameState.gameOver = false →
      1 ≤ (Enhanced.checkCollisions w).1.gameState.lives) := by
  have hs := enhScan_lives w.player.pos w.obstacles.reverse w.gameState.lives h1
  rcases hgo : Enhanced.scanObstacles w.player.pos w.obstacles.reverse w.gameState.lives
    with ⟨obsRev, lives1, go, thrown⟩
  rw [hgo] at hs
  cases go with
  | true =>
    have hz : lives1 = 0 := hs.2.1 rfl
    simp only [Enhanced.checkCollisions, hgo]
    exact ⟨by have := hs.1; simpa using this, by simpa using hz.ge, fun _ => by simpa using hz,
      fun hf => by simp at hf⟩
  | false =>
    have hone : 1 ≤ lives1 := hs.2.2 rfl
    rcases hsc : Enhanced.scanCollectibles w.player.pos w.collectibles.reverse w.gameState.score
      with ⟨colsRev, score1⟩
    simp only [Enhanced.checkCollisions, hgo, hsc]
    exact ⟨by have := hs.1; simpa using this, by simpa using hone.trans' (by omega),
      fun hgo2 => by rw [h0] at hgo2; simp at hgo2, fun _ => by simpa using hone⟩

/-- Helper: the main.ts spawn block never touches lives, the flags, the
player or the score. -/
theorem mainSpawnSection_state (rs : ℕ → ℚ) (dt : ℚ) (w : MainGame.World) :
    (MainGame.spawnSection rs dt w).gameState.lives = w.gameState.lives ∧
    (MainGame.spawnSection rs dt w).gameState.gameOver = w.gameState.gameOver ∧
    (MainGame.spawnSection rs dt w).gameState.isPlaying = w.gameState.isPlaying ∧
    (MainGame.spawnSection rs dt w).gameState.score = w.gameState.score ∧
    (MainGame.spawnSection rs dt w).player = w.player := by
  simp only [MainGame.spawnSection, MainGame.spawnObjects]
  split <;> simp

/-- Helper: the enhanced spawn block never touches lives, the flags, the
player or the score. -/
theorem enhSpawnSection_state (rs : ℕ → ℚ) (dt : ℚ) (w : Enhanced.World) :
    (Enhanced.spawnSection rs dt w).gameState.lives = w.gameState.lives ∧
    (Enhanced.spawnSection rs dt w).gameState.gameOver = w.gameState.gameOver ∧
    (Enhanced.spawnSection rs dt w).gameState.isPlaying = w.gameState.isPlaying ∧
    (Enhanced.spawnSection rs dt w).gameState.score = w.gameState.score ∧
    (Enhanced.spawnSection rs dt w).player = w.player := by
  simp only [Enhanced.spawnSection, Enhanced.spawnObjects]
  split <;> simp

/-- Helper: while playing, one main.ts frame is the score bump applied to
the collision resolution of the spawn block of the physics step. -/
theorem mainFrame_eq (rs : ℕ → ℚ) (dt : ℚ) (w : MainGame.World)
    (hp : w.gameState.isPlaying = true) (hg : w.gameState.gameOver = false) :
    MainGame.frame rs dt w =
      { MainGame.checkCollisions (MainGame.spawnSection rs dt
          { w with player := MainGame.Player.update dt w.player,
                   obstacles := MainGame.cullObstacles dt w.obstacles,
                   collectibles := MainGame.cullCollectibles dt w.collectibles }) with
        gameState := { (MainGame.checkCollisions (MainGame.spawnSection rs dt
          { w with player := MainGame.Player.update dt w.player,
                   obstacles := MainGame.cullObstacles dt w.obstacles,
                   collectibles := MainGame.cullCollectibles dt w.collectibles })).gameState with
          score := (MainGame.checkCollisions (MainGame.spawnSection rs dt
          { w with player := MainGame.Player.update dt w.player,
                   obstacles := MainGame.cullObstacles dt w.obstacles,
                   collectibles := MainGame.cullCollectibles dt w.collectibles })).gameState.score
            + ⌊dt * 5⌋ } } := by
  simp [MainGame.frame, hp, hg]

/-- Helper: while playing and unpaused, the enhanced update's resulting
lives and flags are those of the collision resolution of the spawn block of
the physics step — the trailing survival-score line touches only the score,
and is skipped altogether when the TypeError escapes. -/
theorem enhUpdate_gs (rs : ℕ → ℚ) (dt : ℚ) (w : Enhanced.World)
    (hp : w.gameState.isPlaying = true) (hz : w.gameState.isPaused = false) :
    (Enhanced.update rs dt w).1.gameState.lives =
      (Enhanced.checkCollisions (Enhanced.spawnSection rs dt
        { w with player := Enhanced.Player.update dt w.player,
                 obstacles := Enhanced.cullObstacles dt w.obstacles,
                 collectibles := Enhanced.cullCollectibles dt w.collectibles })).1.gameState.lives ∧
    (Enhanced.update rs dt w).1.gameState.gameOver =
      (Enhanced.checkCollisions (Enhanced.spawnSection rs dt
        { w with player := Enhanced.Player.update dt w.player,
                 obstacles := Enhanced.cullObstacles dt w.obstacles,
                 collectibles := Enhanced.cullCollectibles dt w.collectibles })).1.gameState.gameOver ∧
    (Enhanced.update rs dt w).1.gameState.isPlaying =
      (Enhanced.checkCollisions (Enhanced.spawnSection rs dt
        { w with player := Enhanced.Player.update dt w.player,
                 obstacles := Enhanced.cullObstacles dt w.obstacles,
                 collectibles := Enhanced.cullCollectibles dt w.collectibles })).1.gameState.isPlaying := by
  simp only [Enhanced.update, hp, hz, Bool.not_true, Bool.or_false, Bool.false_eq_true,
    if_false]
  rcases hcc : Enhanced.checkCollisions (Enhanced.spawnSection rs dt
    { w with player := Enhanced.Player.update dt w.player,
             obstacles := Enhanced.cullObstacles dt w.obstacles,
             collectibles := Enhanced.cullCollectibles dt w.collectibles }) with ⟨w3, b⟩
  cases b <;> simp [hcc]

/-- Claim C1: while the session is Playing (with at least one life, as in
every reachable playing state), one frame never raises lives, never leaves
them negative, leaves exactly 0 lives whenever it raises the game-over flag,
and leaves at least 1 life when it does not — in both implementations; in
the enhanced game this holds whether or not the frame aborted with the
collision TypeError, since mutations made before the throw persist. -/
theorem C1_lives_monotone :
    (∀ (rs : ℕ → ℚ) (dt : ℚ) (w : MainGame.World),
       w.gameState.isPlaying = true → w.gameState.gameOver = false →
       1 ≤ w.gameState.lives →
       (MainGame.frame rs dt w).gameState.lives ≤ w.gameState.lives ∧
       0 ≤ (MainGame.frame rs dt w).gameState.lives ∧
       ((MainGame.frame rs dt w).gameState.gameOver = true →
         (MainGame.frame rs dt w).gameState.lives = 0) ∧
       ((MainGame.frame rs dt w).gameState.gameOver = false →
         1 ≤ (MainGame.frame rs dt w).gameState.lives)) ∧
    (∀ (rs : ℕ → ℚ) (dt : ℚ) (w : Enhanced.World),
       w.gameState.isPlaying = true → w.gameState.gameOver = false →
       1 ≤ w.gameState.lives →
       (Enhanced.update rs dt w).1.gameState.lives ≤ w.gameState.lives ∧
       0 ≤ (Enhanced.update rs dt w).1.gameState.lives ∧
       ((Enhanced.update rs dt w).1.gameState.gameOver = true →
         (Enhanced.update rs dt w).1.gameState.lives = 0) ∧
       ((Enhanced.update rs dt w).1.gameState.gameOver = false →
         1 ≤ (Enhanced.update rs dt w).1.gameState.lives)) := by
  constructor
  · intro rs dt w hp hg hl
    rw [mainFrame_eq rs dt w hp hg]
    set w1 : MainGame.World :=
      { w with player := MainGame.Player.update dt w.player,
               obstacles := MainGame.cullObstacles dt w.obstacles,
               collectibles := MainGame.cullCollectibles dt w.collectibles } with hw1
    have h1' : 1 ≤ (MainGame.spawnSection rs dt w1).gameState.lives := by
      rw [(mainSpawnSection_state rs dt w1).1, hw1]
      exact hl
    have h0' : (MainGame.spawnSection rs dt w1).gameState.gameOver = false := by
      rw [(mainSpawnSection_state rs dt w1).2.1, hw1]
      exact hg
    have hc := mainCheck_lives (MainGame.spawnSection rs dt w1) h1' h0'
    have hlv : (MainGame.spawnSection rs dt w1).gameState.lives = w.gameState.lives := by
      rw [(mainSpawnSection_state rs dt w1).1, hw1]
    rw [hlv] at hc
    exact ⟨hc.1, hc.2.1, hc.2.2.1, hc.2.2.2⟩
  · intro rs dt w hp hg hl
    by_cases hz : w.gameState.isPaused = true
    · have hid : Enhanced.update rs dt w = (w, false) := by
        simp [Enhanced.update, hz]
      rw [hid]
      refine ⟨le_rfl, show (0:ℤ) ≤ w.gameState.lives by omega, fun hgo => ?_, fun _ => hl⟩
      rw [show ((w, false) : Enhanced.World × Bool).1 = w from rfl, hg] at hgo
      exact absurd hgo (by simp)
    · have hz' : w.gameState.isPaused = false := by
        cases h : w.gameState.isPaused
        · rfl
        · exact absurd h hz
      have heq := enhUpdate_gs rs dt w hp hz'
      set w1 : Enhanced.World :=
        { w with player := Enhanced.Player.update dt w.player,
                 obstacles := Enhanced.cullObstacles dt w.obstacles,
                 collectibles := Enhanced.cullCollectibles dt w.collectibles } with hw1
      have h1' : 1 ≤ (Enhanced.spawnSection rs dt w1).gameState.lives := by
        rw [(enhSpawnSection_state rs dt w1).1, hw1]
        exact hl
      have h0' : (Enhanced.spawnSection rs dt w1).gameState.gameOver = false := by
        rw [(enhSpawnSection_state rs dt w1).2.1, hw1]
        exact hg
      have hc := enhCheck_lives (Enhanced.spawnSection rs dt w1) h1' h0'
      have hlv : (Enhanced.spawnSection rs dt w1).gameState.lives = w.gameState.lives := by
        rw [(enhSpawnSection_state rs dt w1).1, hw1]
      rw [hlv] at hc
      rw [heq.1, heq.2.1]
      exact ⟨hc.1, hc.2.1, hc.2.2.1, hc.2.2.2⟩

/-- Witness for C1 at a last-life main.ts world and the crashing enhanced
world. -/
theorem C1_witness :
    (lastLifeMain.gameState.isPlaying = true ∧ lastLifeMain.gameState.gameOver = false ∧
      1 ≤ lastLifeMain.gameState.lives ∧
      (MainGame.frame rsHalf 0 lastLifeMain).gameState.lives ≤ lastLifeMain.gameState.lives ∧
      0 ≤ (MainGame.frame rsHalf 0 lastLifeMain).gameState.lives) ∧
    (crashEnh.gameState.isPlaying = true ∧ crashEnh.gameState.gameOver = false ∧
      1 ≤ crashEnh.gameState.lives ∧
      (Enhanced.update rsZero 0 crashEnh).1.gameState.lives ≤ crashEnh.gameState.lives ∧
      0 ≤ (Enhanced.update rsZero 0 crashEnh).1.gameState.lives) :=
  ⟨⟨rfl, rfl, by norm_num [lastLifeMain],
    (C1_lives_monotone.1 rsHalf 0 lastLifeMain rfl rfl (by norm_num [lastLifeMain])).1,
    (C1_lives_monotone.1 rsHalf 0 lastLifeMain rfl rfl (by norm_num [lastLifeMain])).2.1⟩,
   ⟨rfl, rfl, by norm_num [crashEnh],
    (C1_lives_monotone.2 rsZero 0 crashEnh rfl rfl (by norm_num [crashEnh])).1,
    (C1_lives_monotone.2 rsZero 0 crashEnh rfl rfl (by norm_num [crashEnh])).2.1⟩⟩

/-- Helper: when the main.ts obstacle scan triggers game over, the reversed
input splits at the fatal obstacle: the part scanned before it (higher
original indices) was filtered by the hit test, and the part after it — the
lower, not yet scanned indices — is returned exactly as it was. -/
theorem mainScan_split (ppos : V3) :
    ∀ (l : List MainGame.Obstacle) (lv : ℤ),
      (MainGame.scanObstacles ppos l lv).2.2 = true →
      ∃ pre x post, l = pre ++ x :: post ∧ MainGame.obsHit ppos x = true ∧
        (MainGame.scanObstacles ppos l lv).1 =
          pre.filter (fun o => !MainGame.obsHit ppos o) ++ post := by
  intro l
  induction l with
  | nil =>
    intro lv h
    simp [MainGame.scanObstacles] at h
  | cons o rest ih =>
    intro lv h
    by_cases ho : MainGame.obsHit ppos o
    · by_cases h2 : lv - 1 ≤ 0
      · refine ⟨[], o, rest, by simp, ho, ?_⟩
        simp [MainGame.scanObstacles, ho, h2]
      · have h' : (MainGame.scanObstacles ppos rest (lv - 1)).2.2 = true := by
          simpa [MainGame.scanObstacles, ho, h2] using h
        obtain ⟨pre, x, post, hsplit, hx, hres⟩ := ih (lv - 1) h'
        refine ⟨o :: pre, x, post, by simp [hsplit], hx, ?_⟩
        simp only [MainGame.scanObstacles, ho, if_true, h2, if_false]
        rw [hres]
        simp [List.filter_cons, ho]
    · have h' : (MainGame.scanObstacles ppos rest lv).2.2 = true := by
        simpa [MainGame.scanObstacles, ho] using h
      obtain ⟨pre, x, post, hsplit, hx, hres⟩ := ih lv h'
      refine ⟨o :: pre, x, post, by simp [hsplit], hx, ?_⟩
      simp only [MainGame.scanObstacles, ho, Bool.false_eq_true, if_false]
      rw [hres]
      simp [List.filter_cons, ho]

/-- Helper: when the enhanced obstacle scan triggers game over, the obstacle
collection it leaves behind is empty — `stopGame` reassigned it. -/
theorem enhScan_go_nil (ppos : V3) :
    ∀ (l : List Enhanced.Obstacle) (lv : ℤ),
      (Enhanced.scanObstacles ppos l lv).2.2.1 = true →
      (Enhanced.scanObstacles ppos l lv).1 = [] := by
  intro l
  induction l with
  | nil =>
    intro lv h
    simp [Enhanced.scanObstacles] at h
  | cons o rest ih =>
    intro lv h
    by_cases ho : Enhanced.obsHit ppos o
    · by_cases h2 : lv - 1 ≤ 0
      · simp [Enhanced.scanObstacles, ho, h2]
      · have h' : (Enhanced.scanObstacles ppos rest (lv - 1)).2.2.1 = true := by
          simpa [Enhanced.scanObstacles, ho, h2] using h
        simpa [Enhanced.scanObstacles, ho, h2] using ih (lv - 1) h'
    · have h' : (Enhanced.scanObstacles ppos rest lv).2.2.1 = true := by
        simpa [Enhanced.scanObstacles, ho] using h
      simp [Enhanced.scanObstacles, ho, h']

/-- Claim C2: the moment lives hit 0 inside a frame's collision resolution,
the playing flag drops and game over rises at once.  In main.ts the early
return leaves the collectible pass unrun (collectibles and score untouched)
and leaves every obstacle at a lower index than the fatal one exactly as it
was — those are never scanned; the obstacles at higher indices had already
been scanned and filtered by the hit test.  In the enhanced game `stopGame`
empties both collections on the spot, so nothing is scanned afterwards
there either. -/
theorem C2_gameover_transition :
    (∀ w : MainGame.World, w.gameState.gameOver = false →
       (MainGame.checkCollisions w).gameState.gameOver = true →
       (MainGame.checkCollisions w).gameState.isPlaying = false ∧
       (MainGame.checkCollisions w).collectibles = w.collectibles ∧
       (MainGame.checkCollisions w).gameState.score = w.gameState.score ∧
       ∃ before x after, w.obstacles = before ++ x :: after ∧
         MainGame.obsHit w.player.pos x = true ∧
         (MainGame.checkCollisions w).obstacles =
           before ++ after.filter (fun o => !MainGame.obsHit w.player.pos o)) ∧
    (∀ w : Enhanced.World, w.gameState.gameOver = false →
       (Enhanced.checkCollisions w).1.gameState.gameOver = true →
       (Enhanced.checkCollisions w).1.gameState.isPlaying = false ∧
       (Enhanced.checkCollisions w).1.obstacles = [] ∧
       (Enhanced.checkCollisions w).1.collectibles = []) := by
  constructor
  · intro w hg hgo
    rcases hscan : MainGame.scanObstacles w.player.pos w.obstacles.reverse w.gameState.lives
      with ⟨obsRev, lives1, go⟩
    cases go with
    | false =>
      exfalso
      rcases hsc : MainGame.scanCollectibles w.player.pos w.collectibles.reverse
        w.gameState.score with ⟨colsRev, score1⟩
      simp only [MainGame.checkCollisions, hscan, hsc] at hgo
      rw [hg] at hgo
      simp at hgo
    | true =>
      have hsp := mainScan_split w.player.pos w.obstacles.reverse w.gameState.lives
        (by rw [hscan])
      rw [hscan] at hsp
      obtain ⟨pre, x, post, hrev, hx, hres⟩ := hsp
      have hobs : w.obstacles = post.reverse ++ x :: pre.reverse := by
        have h2 := congrArg List.reverse hrev
        simpa using h2
      refine ⟨?_, ?_, ?_, post.reverse, x, pre.reverse, hobs, hx, ?_⟩
      · simp [MainGame.checkCollisions, hscan, MainGame.setGameOver]
      · simp [MainGame.checkCollisions, hscan]
      · simp [MainGame.checkCollisions, hscan, MainGame.setGameOver]
      · have hres' : obsRev =
            List.filter (fun o => !MainGame.obsHit w.player.pos o) pre ++ post := hres
        simp only [MainGame.checkCollisions, hscan]
        rw [hres']
        simp [List.filter_reverse]
  · intro w hg hgo
    rcases hscan : Enhanced.scanObstacles w.player.pos w.obstacles.reverse w.gameState.lives
      with ⟨obsRev, lives1, go, thrown⟩
    cases go with
    | false =>
      exfalso
      rcases hsc : Enhanced.scanCollectibles w.player.pos w.collectibles.reverse
        w.gameState.score with ⟨colsRev, score1⟩
      simp only [Enhanced.checkCollisions, hscan, hsc] at hgo
      rw [hg] at hgo
      simp at hgo
    | true =>
      have hnil : obsRev = [] := by
        have h2 := enhScan_go_nil w.player.pos w.obstacles.reverse w.gameState.lives
          (by rw [hscan])
        rwa [hscan] at h2
      refine ⟨?_, ?_, ?_⟩
      · simp [Enhanced.checkCollisions, hscan]
      · simp [Enhanced.checkCollisions, hscan, hnil]
      · simp [Enhanced.checkCollisions, hscan]

/-- Witness for C2 at the last-life worlds: one obstacle on the player ends
the game; the flags flip, main.ts leaves its in-range collectible unscanned,
and the enhanced game is left with empty collections. -/
theorem C2_witness :
    (lastLifeMain.gameState.gameOver = false ∧
      (MainGame.checkCollisions lastLifeMain).gameState.gameOver = true ∧
      (MainGame.checkCollisions lastLifeMain).gameState.isPlaying = false ∧
      (MainGame.checkCollisions lastLifeMain).collectibles = lastLifeMain.collectibles) ∧
    (crashEnh.gameState.gameOver = false ∧
      (Enhanced.checkCollisions crashEnh).1.gameState.gameOver = true ∧
      (Enhanced.checkCollisions crashEnh).1.gameState.isPlaying = false ∧
      (Enhanced.checkCollisions crashEnh).1.obstacles = [] ∧
      (Enhanced.checkCollisions crashEnh).1.collectibles = []) := by
  have hmgo : (MainGame.checkCollisions lastLifeMain).gameState.gameOver = true := by
    norm_num [MainGame.checkCollisions, MainGame.scanObstacles, MainGame.obsHit,
      MainGame.setGameOver, V3.distSq, lastLifeMain, MainGame.Player.init,
      MainGame.Player.pos]
  have hego : (Enhanced.checkCollisions crashEnh).1.gameState.gameOver = true := by
    norm_num [Enhanced.checkCollisions, Enhanced.scanObstacles, Enhanced.obsHit,
      V3.distSq, crashEnh, Enhanced.Player.init, Enhanced.Player.pos]
  have hm := C2_gameover_transition.1 lastLifeMain rfl hmgo
  have he := C2_gameover_transition.2 crashEnh rfl hego
  exact ⟨⟨rfl, hmgo, hm.1, hm.2.1⟩, ⟨rfl, hego, he.1, he.2.1, he.2.2⟩⟩

/-- Helper: in a duplicate-free list, the element standing at an index is
gone after that index is spliced out. -/
theorem nodup_getD_not_mem_eraseIdx :
    ∀ (l : List ℤ) (i : ℕ), l.Nodup → i < l.length → l.getD i 0 ∉ l.eraseIdx i := by
  intro l
  induction l with
  | nil =>
    intro i _ hi
    simp at hi
  | cons a t ih =>
    intro i hnd hi
    cases i with
    | zero =>
      simp only [List.getD_cons_zero, List.eraseIdx_cons_zero]
      exact (List.nodup_cons.mp hnd).1
    | succ n =>
      have hn : n < t.length := by simpa using hi
      simp only [List.getD_cons_succ, List.eraseIdx_cons_succ]
      intro hmem
      rcases List.mem_cons.mp hmem with h | h
      · have hm : t.getD n 0 ∈ t := by
          rw [List.getD_eq_getElem _ _ hn]
          exact List.getElem_mem hn
        rw [h] at hm
        exact (List.nodup_cons.mp hnd).1 hm
      · exact ih n (List.nodup_cons.mp hnd).2 hn h

/-- Helper: a legal random draw times the list length floors to an in-range
index, exactly as the splice expressions of both spawners rely on. -/
theorem draw_index_lt (r : ℚ) (n : ℕ) (h0 : 0 ≤ r) (h1 : r < 1) (hn : 0 < n) :
    (⌊r * n⌋).toNat < n := by
  have hup : ⌊r * (n : ℚ)⌋ < (n : ℤ) := by
    rw [Int.floor_lt]
    push_cast
    calc r * n < 1 * n := by
          apply mul_lt_mul_of_pos_right h1
          exact_mod_cast hn
      _ = n := one_mul _
  have hlow : 0 ≤ ⌊r * (n : ℚ)⌋ :=
    Int.floor_nonneg.mpr (mul_nonneg h0 (by positivity))
  omega

/-- Helper: the lane coordinates of the three distinct lanes are distinct. -/
theorem laneCoord_ne :
    ∀ a ∈ ([0, 1, 2] : List ℤ), ∀ b ∈ ([0, 1, 2] : List ℤ), a ≠ b →
      laneCoord a ≠ laneCoord b := by
  intro a ha b hb hne
  fin_cases ha <;> fin_cases hb <;> simp_all [laneCoord, Int.toNat_ofNat] <;> norm_num

/-- Helper: every collectible the main.ts pass creates sits on one of the
lanes it was offered. -/
theorem mainCollect_lanes (rs : ℕ → ℚ) :
    ∀ (k : ℕ) (ls : List ℤ) (speed : ℚ) (c : MainGame.Collectible),
      c ∈ MainGame.collectPass rs k ls speed → ∃ lane ∈ ls, c.pos.x = laneCoord lane := by
  intro k ls
  induction ls generalizing k with
  | nil =>
    intro speed c hc
    simp [MainGame.collectPass] at hc
  | cons lane rest ih =>
    intro speed c hc
    by_cases hr : rs k < 3/5
    · simp only [MainGame.collectPass, hr, if_true] at hc
      rcases List.mem_cons.mp hc with h | h
      · exact ⟨lane, List.mem_cons_self _ _, by rw [h]; rfl⟩
      · obtain ⟨l2, hl2, hx⟩ := ih (k + 1) speed c h
        exact ⟨l2, List.mem_cons_of_mem _ hl2, hx⟩
    · simp only [MainGame.collectPass, hr, if_false] at hc
      obtain ⟨l2, hl2, hx⟩ := ih (k + 1) speed c hc
      exact ⟨l2, List.mem_cons_of_mem _ hl2, hx⟩

/-- Helper: every collectible the enhanced pass creates sits on one of the
lanes it was offered. -/
theorem enhCollect_lanes (rs : ℕ → ℚ) :
    ∀ (k : ℕ) (ls : List ℤ) (speed : ℚ) (c : Enhanced.Collectible),
      c ∈ Enhanced.collectPass rs k ls speed → ∃ lane ∈ ls, c.pos.x = laneCoord lane := by
  intro k ls
  induction ls generalizing k with
  | nil =>
    intro speed c hc
    simp [Enhanced.collectPass] at hc
  | cons lane rest ih =>
    intro speed c hc
    by_cases hr : rs k < 7/10
    · simp only [Enhanced.collectPass, hr, if_true] at hc
      rcases List.mem_cons.mp hc with h | h
      · exact ⟨lane, List.mem_cons_self _ _, by rw [h]; rfl⟩
      · obtain ⟨l2, hl2, hx⟩ := ih (k + 2) speed c h
        exact ⟨l2, List.mem_cons_of_mem _ hl2, hx⟩
    · simp only [Enhanced.collectPass, hr, if_false] at hc
      obtain ⟨l2, hl2, hx⟩ := ih (k + 1) speed c hc
      exact ⟨l2, List.mem_cons_of_mem _ hl2, hx⟩

/-- Helper: the splice loop keeps the remaining lanes duplicate-free and
inside the offered set, and every obstacle it creates sits on an offered
lane that is no longer among the remaining ones. -/
theorem enhSplice_lanes (rs : ℕ → ℚ) (speed : ℚ) (hr : RandOk rs) :
    ∀ (n k : ℕ) (avail : List ℤ), avail.Nodup →
      (Enhanced.spliceObstacles rs speed n k avail).2.1.Nodup ∧
      (∀ lane ∈ (Enhanced.spliceObstacles rs speed n k avail).2.1, lane ∈ avail) ∧
      (∀ o ∈ (Enhanced.spliceObstacles rs speed n k avail).1,
        ∃ lane ∈ avail, o.pos.x = laneCoord lane ∧
          lane ∉ (Enhanced.spliceObstacles rs speed n k avail).2.1) := by
  intro n
  induction n with
  | zero =>
    intro k avail hnd
    refine ⟨hnd, fun lane h => h, fun o ho => ?_⟩
    simp [Enhanced.spliceObstacles] at ho
  | succ m ih =>
    intro k avail hnd
    by_cases he : avail.isEmpty
    · simp only [Enhanced.spliceObstacles, he, if_true]
      exact ⟨hnd, fun lane h => h, fun o ho => by simp at ho⟩
    · have hlen : 0 < avail.length := by
        cases avail
        · simp at he
        · simp
      have hidx : (⌊rs k * (avail.length : ℚ)⌋).toNat < avail.length :=
        draw_index_lt (rs k) avail.length (hr k).1 (hr k).2 hlen
      have hnd' : (avail.eraseIdx (⌊rs k * (avail.length : ℚ)⌋).toNat).Nodup :=
        hnd.sublist (List.eraseIdx_sublist _ _)
      have hih := ih (k + 1) (avail.eraseIdx (⌊rs k * (avail.length : ℚ)⌋).toNat) hnd'
      simp only [Enhanced.spliceObstacles, he, if_false]
      refine ⟨hih.1, ?_, ?_⟩
      · intro lane h
        exact (List.eraseIdx_sublist _ _).subset (hih.2.1 lane h)
      · intro o ho
        rcases List.mem_cons.mp ho with h | h
        · refine ⟨avail.getD (⌊rs k * (avail.length : ℚ)⌋).toNat 0, ?_, by rw [h]; rfl, ?_⟩
          · rw [List.getD_eq_getElem _ _ hidx]
            exact List.getElem_mem hidx
          · intro hmem
            exact nodup_getD_not_mem_eraseIdx avail _ hnd hidx (hih.2.1 _ hmem)
        · obtain ⟨lane, hlin, hx, hnot⟩ := hih.2.2 o h
          exact ⟨lane, (List.eraseIdx_sublist _ _).subset hlin, hx, hnot⟩

/-- Claim C3: in one spawn tick, no lane receives both an obstacle and a
collectible: each obstacle's lane is spliced out of the available set before
collectibles are offered lanes, in both implementations (stated over the
entities the tick appends to the collections). -/
theorem C3_lane_exclusion :
    (∀ (rs : ℕ → ℚ) (w : MainGame.World), RandOk rs →
       ∀ o ∈ (MainGame.spawnObjects rs w).obstacles.drop w.obstacles.length,
         ∀ c ∈ (MainGame.spawnObjects rs w).collectibles.drop w.collectibles.length,
           o.pos.x ≠ c.pos.x) ∧
    (∀ (rs : ℕ → ℚ) (w : Enhanced.World), RandOk rs →
       ∀ o ∈ (Enhanced.spawnObjects rs w).obstacles.drop w.obstacles.length,
         ∀ c ∈ (Enhanced.spawnObjects rs w).collectibles.drop w.collectibles.length,
           o.pos.x ≠ c.pos.x) := by
  constructor
  · intro rs w hr o ho c hc
    rw [show (MainGame.spawnObjects rs w).obstacles =
          w.obstacles ++ MainGame.newObstacles rs w.gameState.speed from rfl,
        List.drop_left] at ho
    rw [show (MainGame.spawnObjects rs w).collectibles =
          w.collectibles ++ MainGame.collectPass rs (MainGame.drawsUsed rs)
            (MainGame.lanesLeft rs) w.gameState.speed from rfl,
        List.drop_left] at hc
    by_cases h7 : rs 0 < 7/10
    · have hidx : (⌊rs 1 * (3 : ℚ)⌋).toNat < 3 := by
        have := draw_index_lt (rs 1) 3 (hr 1).1 (hr 1).2 (by norm_num)
        simpa using this
      simp only [MainGame.newObstacles, h7, if_true, List.mem_singleton] at ho
      obtain ⟨lane2, hl2, hx2⟩ := mainCollect_lanes rs _ _ _ c hc
      rw [MainGame.lanesLeft, if_pos h7] at hl2
      have hlane_mem : ([0, 1, 2] : List ℤ).getD (⌊rs 1 * (3 : ℚ)⌋).toNat 0 ∈
          ([0, 1, 2] : List ℤ) := by
        rw [List.getD_eq_getElem _ _ (by simpa using hidx)]
        exact List.getElem_mem (by simpa using hidx)
      have hlane_not : ([0, 1, 2] : List ℤ).getD (⌊rs 1 * (3 : ℚ)⌋).toNat 0 ∉
          ([0, 1, 2] : List ℤ).eraseIdx (⌊rs 1 * (3 : ℚ)⌋).toNat :=
        nodup_getD_not_mem_eraseIdx _ _ (by norm_num) (by simpa using hidx)
      have hl2' : lane2 ∈ ([0, 1, 2] : List ℤ) :=
        (List.eraseIdx_sublist _ _).subset hl2
      have hne : ([0, 1, 2] : List ℤ).getD (⌊rs 1 * (3 : ℚ)⌋).toNat 0 ≠ lane2 := by
        intro h
        exact hlane_not (h ▸ hl2)
      rw [ho, hx2]
      exact laneCoord_ne _ hlane_mem lane2 hl2' hne
    · simp only [MainGame.newObstacles, h7, if_false] at ho
      simp at ho
  · intro rs w hr o ho c hc
    rw [show (Enhanced.spawnObjects rs w).obstacles =
          w.obstacles ++ (Enhanced.spliceObstacles rs w.gameState.speed
            (if rs 0 < 3/5 then 1 else 2) 1 [0, 1, 2]).1 from rfl,
        List.drop_left] at ho
    rw [show (Enhanced.spawnObjects rs w).collectibles =
          w.collectibles ++ Enhanced.collectPass rs
            (Enhanced.spliceObstacles rs w.gameState.speed
              (if rs 0 < 3/5 then 1 else 2) 1 [0, 1, 2]).2.2
            (Enhanced.spliceObstacles rs w.gameState.speed
              (if rs 0 < 3/5 then 1 else 2) 1 [0, 1, 2]).2.1
            w.gameState.speed from rfl,
        List.drop_left] at hc
    have hsp := enhSplice_lanes rs w.gameState.speed hr
      (if rs 0 < 3/5 then 1 else 2) 1 [0, 1, 2] (by norm_num)
    obtain ⟨lane, hlin, hx, hnot⟩ := hsp.2.2 o ho
    obtain ⟨lane2, hl2, hx2⟩ := enhCollect_lanes rs _ _ _ c hc
    have hl2' : lane2 ∈ ([0, 1, 2] : List ℤ) := hsp.2.1 lane2 hl2
    have hne : lane ≠ lane2 := by
      intro h
      exact hnot (h ▸ hl2)
    rw [hx, hx2]
    exact laneCoord_ne lane hlin lane2 hl2' hne

/-- Witness for C3: with the constant 1/2 oracle from a fresh main.ts game
the tick puts the obstacle on the centre lane and a collectible on the left
lane, and their x coordinates differ; likewise in the enhanced game. -/
theorem C3_witness :
    RandOk rsHalf ∧
    MainGame.Obstacle.spawn 1 (-50) 10 ∈
      (MainGame.spawnObjects rsHalf (MainGame.startGame idleMain)).obstacles.drop
        (MainGame.startGame idleMain).obstacles.length ∧
    MainGame.Collectible.spawn 0 (-50) 10 ∈
      (MainGame.spawnObjects rsHalf (MainGame.startGame idleMain)).collectibles.drop
        (MainGame.startGame idleMain).collectibles.length ∧
    (MainGame.Obstacle.spawn 1 (-50) 10).pos.x ≠
      (MainGame.Collectible.spawn 0 (-50) 10).pos.x ∧
    Enhanced.Obstacle.spawn 1 (-50) 10 ∈
      (Enhanced.spawnObjects rsHalf (Enhanced.startGame idleEnh)).obstacles.drop
        (Enhanced.startGame idleEnh).obstacles.length ∧
    Enhanced.Collectible.spawn 0 (-50) Enhanced.CType.phooljhadi 10 ∈
      (Enhanced.spawnObjects rsHalf (Enhanced.startGame idleEnh)).collectibles.drop
        (Enhanced.startGame idleEnh).collectibles.length ∧
    (Enhanced.Obstacle.spawn 1 (-50) 10).pos.x ≠
      (Enhanced.Collectible.spawn 0 (-50) Enhanced.CType.phooljhadi 10).pos.x := by
  have hrand : RandOk rsHalf := by
    intro n
    norm_num [rsHalf]
  have hmo : MainGame.Obstacle.spawn 1 (-50) 10 ∈
      (MainGame.spawnObjects rsHalf (MainGame.startGame idleMain)).obstacles.drop
        (MainGame.startGame idleMain).obstacles.length := by
    norm_num [MainGame.spawnObjects, MainGame.newObstacles, MainGame.startGame, idleMain,
      rsHalf, laneCoord]
  have hmc : MainGame.Collectible.spawn 0 (-50) 10 ∈
      (MainGame.spawnObjects rsHalf (MainGame.startGame idleMain)).collectibles.drop
        (MainGame.startGame idleMain).collectibles.length := by
    norm_num [MainGame.spawnObjects, MainGame.collectPass, MainGame.drawsUsed,
      MainGame.lanesLeft, MainGame.startGame, idleMain, rsHalf, laneCoord]
  have heo : Enhanced.Obstacle.spawn 1 (-50) 10 ∈
      (Enhanced.spawnObjects rsHalf (Enhanced.startGame idleEnh)).obstacles.drop
        (Enhanced.startGame idleEnh).obstacles.length := by
    norm_num [Enhanced.spawnObjects, Enhanced.spliceObstacles, Enhanced.startGame, idleEnh,
      rsHalf, laneCoord]
  have hec : Enhanced.Collectible.spawn 0 (-50) Enhanced.CType.phooljhadi 10 ∈
      (Enhanced.spawnObjects rsHalf (Enhanced.startGame idleEnh)).collectibles.drop
        (Enhanced.startGame idleEnh).collectibles.length := by
    norm_num [Enhanced.spawnObjects, Enhanced.spliceObstacles, Enhanced.collectPass,
      Enhanced.ctypeOfDraw, Enhanced.startGame, idleEnh, rsHalf, laneCoord,
      show Int.toNat 2 = 2 from rfl]
  exact ⟨hrand, hmo, hmc,
    C3_lane_exclusion.1 rsHalf (MainGame.startGame idleMain) hrand _ hmo _ hmc,
    heo, hec,
    C3_lane_exclusion.2 rsHalf (Enhanced.startGame idleEnh) hrand _ heo _ hec⟩

/-- Claim C4 evaluated at the failing input: on the last life with two
obstacles inside the hit radius, the enhanced per-frame update aborts with
the TypeError the collision loop raises after `stopGame` emptied the
obstacle array mid-iteration (the Bool of `Enhanced.update` reports the
escaped exception) — so an exception does propagate out of the per-frame
update, contrary to the claim. -/
theorem C4_update_throws_at_failing_input :
    (Enhanced.update rsZero 0 crashEnh).2 = true := by
  norm_num [Enhanced.update, Enhanced.Player.update, Enhanced.cullObstacles,
    Enhanced.cullCollectibles, Enhanced.spawnSection, Enhanced.checkCollisions,
    Enhanced.scanObstacles, Enhanced.obsHit, Enhanced.Obstacle.update,
    V3.distSq, crashEnh, rsZero, Enhanced.Player.init, Enhanced.Player.pos]

/-- Claim C9 counterexample: with two obstacles both one frame from the
threshold, main.ts's forward forEach-with-splice removes the first but then
skips the second entirely — it is neither updated (its z stays 9) nor
removed — while the claim's no-skip discipline removes both. -/
theorem C9_counterexample_skip :
    MainGame.cullObstacles 1 [nearGoneObstacle, nearGoneObstacle] = [nearGoneObstacle] ∧
    MainGame.cullObstaclesClaim 1 [nearGoneObstacle, nearGoneObstacle] = [] ∧
    MainGame.cullObstacles 1 [nearGoneObstacle, nearGoneObstacle] ≠
      MainGame.cullObstaclesClaim 1 [nearGoneObstacle, nearGoneObstacle] := by
  norm_num [MainGame.cullObstacles, MainGame.cullObstaclesClaim, MainGame.forEachCull,
    MainGame.Obstacle.update, nearGoneObstacle, List.set, List.eraseIdx]

/-- Claim C6 counterexample: from a fresh game, at the first spawn tick the
source creates the tick's entities before raising the speed, so the new
obstacle captures velocity 10, while the claim's stated order (reset timer
and raise speed, then create) would give it velocity 10.1. -/
theorem C6_counterexample_order :
    ((MainGame.spawnSection rsHalf (5/2) (MainGame.startGame idleMain)).obstacles.map
        (fun o => o.vel) = [10]) ∧
    ((MainGame.spawnSectionClaim rsHalf (5/2) (MainGame.startGame idleMain)).obstacles.map
        (fun o => o.vel) = [101/10]) ∧
    ((10 : ℚ) ≠ 101/10) := by
  norm_num [MainGame.spawnSection, MainGame.spawnSectionClaim, MainGame.spawnObjects,
    MainGame.newObstacles, MainGame.spawnInterval, MainGame.startGame, idleMain,
    MainGame.Obstacle.spawn, laneCoord, rsHalf]

/-- Helper: every obstacle the splice loop creates captures the speed it was
given. -/
theorem enhSplice_vel (rs : ℕ → ℚ) (speed : ℚ) :
    ∀ (n k : ℕ) (avail : List ℤ),
      ∀ o ∈ (Enhanced.spliceObstacles rs speed n k avail).1, o.velZ = speed := by
  intro n
  induction n with
  | zero =>
    intro k avail o ho
    simp [Enhanced.spliceObstacles] at ho
  | succ m ih =>
    intro k avail o ho
    by_cases he : avail.isEmpty
    · simp [Enhanced.spliceObstacles, he] at ho
    · simp only [Enhanced.spliceObstacles, he, if_false] at ho
      rcases List.mem_cons.mp ho with h | h
      · rw [h]
        rfl
      · exact ih _ _ o h

/-- Claim C6 (amended): each frame the spawner accumulates deltaTime into
the spawn timer; when the timer reaches the spawn interval it creates that
tick's new entities — capturing the pre-increment speed — and then resets
the timer to 0 and raises the speed by the fixed increment 0.1 (the
enhanced game also decays its interval towards the floor 1.2); below the
interval it only accumulates.  Advancing 2.5 s (one default main.ts
interval) from a fresh start with no collisions yields exactly one spawn
cycle: speed up by exactly 0.1 and the spawn timer back at 0. -/
theorem C6_spawn_cycle :
    (∀ (rs : ℕ → ℚ) (dt : ℚ) (w : MainGame.World),
       MainGame.spawnInterval ≤ w.spawnTimer + dt →
       (MainGame.spawnSection rs dt w).spawnTimer = 0 ∧
       (MainGame.spawnSection rs dt w).gameState.speed = w.gameState.speed + 1/10 ∧
       (MainGame.spawnSection rs dt w).obstacles =
         w.obstacles ++ MainGame.newObstacles rs w.gameState.speed ∧
       (∀ o ∈ MainGame.newObstacles rs w.gameState.speed, o.vel = w.gameState.speed)) ∧
    (∀ (rs : ℕ → ℚ) (dt : ℚ) (w : MainGame.World),
       w.spawnTimer + dt < MainGame.spawnInterval →
       MainGame.spawnSection rs dt w = { w with spawnTimer := w.spawnTimer + dt }) ∧
    (∀ (rs : ℕ → ℚ) (dt : ℚ) (w : Enhanced.World),
       w.spawnInterval ≤ w.spawnTimer + dt →
       (Enhanced.spawnSection rs dt w).spawnTimer = 0 ∧
       (Enhanced.spawnSection rs dt w).gameState.speed = w.gameState.speed + 1/10 ∧
       (Enhanced.spawnSection rs dt w).spawnInterval =
         max (6/5) (w.spawnInterval - 1/50) ∧
       (∀ o ∈ (Enhanced.spawnSection rs dt w).obstacles.drop w.obstacles.length,
          o.velZ = w.gameState.speed)) ∧
    (∀ (rs : ℕ → ℚ) (dt : ℚ) (w : Enhanced.World),
       w.spawnTimer + dt < w.spawnInterval →
       Enhanced.spawnSection rs dt w = { w with spawnTimer := w.spawnTimer + dt }) ∧
    ((MainGame.frame rsHalf (5/2) (MainGame.startGame idleMain)).gameState.speed =
        10 + 1/10 ∧
     (MainGame.frame rsHalf (5/2) (MainGame.startGame idleMain)).spawnTimer = 0 ∧
     (MainGame.frame rsHalf (5/2) (MainGame.startGame idleMain)).obstacles.length = 1 ∧
     (MainGame.frame rsHalf (5/2) (MainGame.startGame idleMain)).collectibles.length = 2) := by
  refine ⟨?_, ?_, ?_, ?_, ?_⟩
  · intro rs dt w h
    refine ⟨?_, ?_, ?_, ?_⟩
    · simp [MainGame.spawnSection, h]
    · simp [MainGame.spawnSection, h, MainGame.spawnObjects]
    · simp [MainGame.spawnSection, h, MainGame.spawnObjects]
    · intro o ho
      by_cases h7 : rs 0 < 7/10
      · simp only [MainGame.newObstacles, h7, if_true, List.mem_singleton] at ho
        rw [ho]
        rfl
      · simp [MainGame.newObstacles, h7] at ho
  · intro rs dt w h
    simp [MainGame.spawnSection, not_le.mpr h]
  · intro rs dt w h
    refine ⟨?_, ?_, ?_, ?_⟩
    · simp [Enhanced.spawnSection, h]
    · simp [Enhanced.spawnSection, h, Enhanced.spawnObjects]
    · simp [Enhanced.spawnSection, h, Enhanced.spawnObjects]
    · intro o ho
      rw [show (Enhanced.spawnSection rs dt w).obstacles =
            w.obstacles ++ (Enhanced.spliceObstacles rs w.gameState.speed
              (if rs 0 < 3/5 then 1 else 2) 1 [0, 1, 2]).1 by
          simp [Enhanced.spawnSection, h, Enhanced.spawnObjects],
        List.drop_left] at ho
      exact enhSplice_vel rs w.gameState.speed _ 1 [0, 1, 2] o ho
  · intro rs dt w h
    simp [Enhanced.spawnSection, not_le.mpr h]
  · refine ⟨?_, ?_, ?_, ?_⟩ <;>
      norm_num [MainGame.frame, MainGame.Player.update, MainGame.Player.init,
        MainGame.Player.pos, MainGame.cullObstacles, MainGame.cullCollectibles,
        MainGame.forEachCull, MainGame.spawnSection, MainGame.spawnInterval,
        MainGame.spawnObjects, MainGame.newObstacles, MainGame.drawsUsed,
        MainGame.lanesLeft, MainGame.collectPass, MainGame.checkCollisions,
        MainGame.scanObstacles, MainGame.scanCollectibles, MainGame.obsHit,
        MainGame.colHit, V3.distSq, MainGame.Obstacle.spawn, MainGame.Collectible.spawn,
        MainGame.startGame, idleMain, rsHalf, laneCoord,
        show Int.toNat 0 = 0 from rfl, show Int.toNat 1 = 1 from rfl,
        show Int.toNat 2 = 2 from rfl]

/-- Witness for C6: the first spawn tick of a fresh main.ts game and a fresh
enhanced game, and one short quiet frame each. -/
theorem C6_witness :
    (MainGame.spawnInterval ≤ (MainGame.startGame idleMain).spawnTimer + 5/2 ∧
      (MainGame.spawnSection rsHalf (5/2) (MainGame.startGame idleMain)).spawnTimer = 0 ∧
      (MainGame.spawnSection rsHalf (5/2) (MainGame.startGame idleMain)).gameState.speed =
        (MainGame.startGame idleMain).gameState.speed + 1/10) ∧
    ((MainGame.startGame idleMain).spawnTimer + 1 < MainGame.spawnInterval ∧
      MainGame.spawnSection rsHalf 1 (MainGame.startGame idleMain) =
        { MainGame.startGame idleMain with
            spawnTimer := (MainGame.startGame idleMain).spawnTimer + 1 }) ∧
    ((Enhanced.startGame idleEnh).spawnInterval ≤
        (Enhanced.startGame idleEnh).spawnTimer + 2 ∧
      (Enhanced.spawnSection rsHalf 2 (Enhanced.startGame idleEnh)).spawnTimer = 0 ∧
      (Enhanced.spawnSection rsHalf 2 (Enhanced.startGame idleEnh)).gameState.speed =
        (Enhanced.startGame idleEnh).gameState.speed + 1/10) ∧
    ((Enhanced.startGame idleEnh).spawnTimer + 1 < (Enhanced.startGame idleEnh).spawnInterval ∧
      Enhanced.spawnSection rsHalf 1 (Enhanced.startGame idleEnh) =
        { Enhanced.startGame idleEnh with
            spawnTimer := (Enhanced.startGame idleEnh).spawnTimer + 1 }) := by
  have hm : MainGame.spawnInterval ≤ (MainGame.startGame idleMain).spawnTimer + 5/2 := by
    norm_num [MainGame.spawnInterval, MainGame.startGame, idleMain]
  have hm2 : (MainGame.startGame idleMain).spawnTimer + 1 < MainGame.spawnInterval := by
    norm_num [MainGame.spawnInterval, MainGame.startGame, idleMain]
  have he : (Enhanced.startGame idleEnh).spawnInterval ≤
      (Enhanced.startGame idleEnh).spawnTimer + 2 := by
    norm_num [Enhanced.startGame, idleEnh]
  have he2 : (Enhanced.startGame idleEnh).spawnTimer + 1 <
      (Enhanced.startGame idleEnh).spawnInterval := by
    norm_num [Enhanced.startGame, idleEnh]
  have c1 := C6_spawn_cycle.1 rsHalf (5/2) (MainGame.startGame idleMain) hm
  have c2 := C6_spawn_cycle.2.1 rsHalf 1 (MainGame.startGame idleMain) hm2
  have c3 := C6_spawn_cycle.2.2.1 rsHalf 2 (Enhanced.startGame idleEnh) he
  have c4 := C6_spawn_cycle.2.2.2.1 rsHalf 1 (Enhanced.startGame idleEnh) he2
  exact ⟨⟨hm, c1.1, c1.2.1⟩, ⟨hm2, c2⟩, ⟨he, c3.1, c3.2.1⟩, ⟨he2, c4⟩⟩

/-- Helper: splicing the index just written leaves the same list as splicing
the original. -/
theorem eraseIdx_set_self {α : Type} :
    ∀ (l : List α) (k : ℕ) (a : α), (l.set k a).eraseIdx k = l.eraseIdx k := by
  intro l
  induction l with
  | nil =>
    intro k a
    simp
  | cons x xs ih =>
    intro k a
    cases k with
    | zero => simp
    | succ n => simp [ih]

/-- Helper: the forward forEach cull keeps the despawn invariant: if every
element was on the in-play side before the pass, every element still in the
array afterwards is too — updated survivors by the keep test, skipped or
unvisited elements because they were not moved. -/
theorem forEachCull_z_le {α : Type} (upd : ℚ → α → α) (getZ : α → ℚ) (dt : ℚ) :
    ∀ (n k : ℕ) (arr : List α), (∀ o ∈ arr, getZ o ≤ 10) →
      ∀ o ∈ MainGame.forEachCull upd getZ dt n k arr, getZ o ≤ 10 := by
  intro n
  induction n with
  | zero =>
    intro k arr h o ho
    exact h o ho
  | succ m ih =>
    intro k arr h o ho
    rcases hg : arr.get? k with _ | oe
    · simp only [MainGame.forEachCull, hg] at ho
      exact ih (k + 1) arr h o ho
    · simp only [MainGame.forEachCull, hg] at ho
      by_cases hz : 10 < getZ (upd dt oe)
      · rw [if_pos hz, eraseIdx_set_self] at ho
        refine ih (k + 1) (arr.eraseIdx k) ?_ o ho
        intro o2 ho2
        exact h o2 ((List.eraseIdx_sublist _ _).subset ho2)
      · rw [if_neg hz] at ho
        refine ih (k + 1) (arr.set k (upd dt oe)) ?_ o ho
        intro o2 ho2
        rcases List.mem_or_eq_of_mem_set ho2 with h2 | h2
        · exact h o2 h2
        · rw [h2]
          exact le_of_not_lt hz

/-- Helper: every obstacle surviving the main.ts scan came from the input. -/
theorem mainScanObs_mem (ppos : V3) :
    ∀ (l : List MainGame.Obstacle) (lv : ℤ) (o : MainGame.Obstacle),
      o ∈ (MainGame.scanObstacles ppos l lv).1 → o ∈ l := by
  intro l
  induction l with
  | nil =>
    intro lv o ho
    simp [MainGame.scanObstacles] at ho
  | cons x rest ih =>
    intro lv o ho
    by_cases hx : MainGame.obsHit ppos x
    · by_cases h2 : lv - 1 ≤ 0
      · simp only [MainGame.scanObstacles, hx, if_true, h2] at ho
        exact List.mem_cons_of_mem _ ho
      · simp only [MainGame.scanObstacles, hx, if_true, h2, if_false] at ho
        exact List.mem_cons_of_mem _ (ih _ o ho)
    · simp only [MainGame.scanObstacles, hx, Bool.false_eq_true, if_false] at ho
      rcases List.mem_cons.mp ho with h | h
      · rw [h]
        exact List.mem_cons_self _ _
      · exact List.mem_cons_of_mem _ (ih _ o h)

/-- Helper: every collectible surviving the main.ts scan came from the
input. -/
theorem mainScanCol_mem (ppos : V3) :
    ∀ (l : List MainGame.Collectible) (s : ℤ) (c : MainGame.Collectible),
      c ∈ (MainGame.scanCollectibles ppos l s).1 → c ∈ l := by
  intro l
  induction l with
  | nil =>
    intro s c hc
    simp [MainGame.scanCollectibles] at hc
  | cons x rest ih =>
    intro s c hc
    by_cases hx : MainGame.colHit ppos x
    · simp only [MainGame.scanCollectibles, hx, if_true] at hc
      exact List.mem_cons_of_mem _ (ih _ c hc)
    · simp only [MainGame.scanCollectibles, hx, Bool.false_eq_true, if_false] at hc
      rcases List.mem_cons.mp hc with h | h
      · rw [h]
        exact List.mem_cons_self _ _
      · exact List.mem_cons_of_mem _ (ih _ c h)

/-- Helper: the main.ts collision resolution only removes obstacles. -/
theorem mainCheck_mem_obstacles (w : MainGame.World) :
    ∀ o ∈ (MainGame.checkCollisions w).obstacles, o ∈ w.obstacles := by
  intro o ho
  rcases hscan : MainGame.scanObstacles w.player.pos w.obstacles.reverse w.gameState.lives
    with ⟨obsRev, lives1, go⟩
  cases go with
  | true =>
    simp only [MainGame.checkCollisions, hscan] at ho
    rw [List.mem_reverse] at ho
    have h2 : o ∈ w.obstacles.reverse :=
      mainScanObs_mem w.player.pos w.obstacles.reverse w.gameState.lives o
        (by rw [hscan]; exact ho)
    rwa [List.mem_reverse] at h2
  | false =>
    rcases hsc : MainGame.scanCollectibles w.player.pos w.collectibles.reverse
      w.gameState.score with ⟨colsRev, score1⟩
    simp only [MainGame.checkCollisions, hscan, hsc] at ho
    rw [List.mem_reverse] at ho
    have h2 : o ∈ w.obstacles.reverse :=
      mainScanObs_mem w.player.pos w.obstacles.reverse w.gameState.lives o
        (by rw [hscan]; exact ho)
    rwa [List.mem_reverse] at h2

/-- Helper: the main.ts collision resolution only removes collectibles. -/
theorem mainCheck_mem_collectibles (w : MainGame.World) :
    ∀ c ∈ (MainGame.checkCollisions w).collectibles, c ∈ w.collectibles := by
  intro c hc
  rcases hscan : MainGame.scanObstacles w.player.pos w.obstacles.reverse w.gameState.lives
    with ⟨obsRev, lives1, go⟩
  cases go with
  | true =>
    simp only [MainGame.checkCollisions, hscan] at hc
    exact hc
  | false =>
    rcases hsc : MainGame.scanCollectibles w.player.pos w.collectibles.reverse
      w.gameState.score with ⟨colsRev, score1⟩
    simp only [MainGame.checkCollisions, hscan, hsc] at hc
    rw [List.mem_reverse] at hc
    have h2 : c ∈ w.collectibles.reverse :=
      mainScanCol_mem w.player.pos w.collectibles.reverse w.gameState.score c
        (by rw [hsc]; exact hc)
    rwa [List.mem_reverse] at h2

/-- Helper: every obstacle of one main.ts spawn tick is created at z = -50. -/
theorem mainNewObstacles_z (rs : ℕ → ℚ) (speed : ℚ) :
    ∀ o ∈ MainGame.newObstacles rs speed, o.pos.z = -50 := by
  intro o ho
  by_cases h7 : rs 0 < 7/10
  · simp only [MainGame.newObstacles, h7, if_true, List.mem_singleton] at ho
    rw [ho]
    rfl
  · simp [MainGame.newObstacles, h7] at ho

/-- Helper: every collectible of one main.ts spawn tick is created at
z = -50. -/
theorem mainCollectPass_z (rs : ℕ → ℚ) :
    ∀ (k : ℕ) (ls : List ℤ) (speed : ℚ),
      ∀ c ∈ MainGame.collectPass rs k ls speed, c.pos.z = -50 := by
  intro k ls
  induction ls generalizing k with
  | nil =>
    intro speed c hc
    simp [MainGame.collectPass] at hc
  | cons lane rest ih =>
    intro speed c hc
    by_cases hr : rs k < 3/5
    · simp only [MainGame.collectPass, hr, if_true] at hc
      rcases List.mem_cons.mp hc with h | h
      · rw [h]
        rfl
      · exact ih (k + 1) speed c h
    · simp only [MainGame.collectPass, hr, if_false] at hc
      exact ih (k + 1) speed c hc

/-- Helper: the main.ts spawn block preserves the obstacle despawn bound. -/
theorem mainSpawnSection_zo (rs : ℕ → ℚ) (dt : ℚ) (w : MainGame.World)
    (h : ∀ o ∈ w.obstacles, o.pos.z ≤ 10) :
    ∀ o ∈ (MainGame.spawnSection rs dt w).obstacles, o.pos.z ≤ 10 := by
  intro o ho
  by_cases hs : MainGame.spawnInterval ≤ w.spawnTimer + dt
  · rw [show (MainGame.spawnSection rs dt w).obstacles =
        w.obstacles ++ MainGame.newObstacles rs w.gameState.speed by
        simp [MainGame.spawnSection, hs, MainGame.spawnObjects]] at ho
    rcases List.mem_append.mp ho with h2 | h2
    · exact h o h2
    · rw [mainNewObstacles_z rs w.gameState.speed o h2]
      norm_num
  · rw [show (MainGame.spawnSection rs dt w).obstacles = w.obstacles by
        simp [MainGame.spawnSection, hs]] at ho
    exact h o ho

/-- Helper: the main.ts spawn block preserves the collectible despawn
bound. -/
theorem mainSpawnSection_zc (rs : ℕ → ℚ) (dt : ℚ) (w : MainGame.World)
    (h : ∀ c ∈ w.collectibles, c.pos.z ≤ 10) :
    ∀ c ∈ (MainGame.spawnSection rs dt w).collectibles, c.pos.z ≤ 10 := by
  intro c hc
  by_cases hs : MainGame.spawnInterval ≤ w.spawnTimer + dt
  · rw [show (MainGame.spawnSection rs dt w).collectibles =
        w.collectibles ++ MainGame.collectPass rs (MainGame.drawsUsed rs)
          (MainGame.lanesLeft rs) w.gameState.speed by
        simp [MainGame.spawnSection, hs, MainGame.spawnObjects]] at hc
    rcases List.mem_append.mp hc with h2 | h2
    · exact h c h2
    · rw [mainCollectPass_z rs _ _ _ c h2]
      norm_num
  · rw [show (MainGame.spawnSection rs dt w).collectibles = w.collectibles by
        simp [MainGame.spawnSection, hs]] at hc
    exact h c hc

/-- Helper: the enhanced reverse cull equals the no-skip discipline — update
every member exactly once, then drop exactly those past the threshold. -/
theorem enhCullObs_filter (dt : ℚ) :
    ∀ l : List Enhanced.Obstacle,
      Enhanced.cullObstacles dt l =
        (l.map (Enhanced.Obstacle.update dt)).filter (fun o => !decide (10 < o.pos.z)) := by
  intro l
  induction l with
  | nil => rfl
  | cons o rest ih =>
    by_cases hz : 10 < (Enhanced.Obstacle.update dt o).pos.z
    · simp [Enhanced.cullObstacles, hz, ih, List.filter_cons]
    · simp [Enhanced.cullObstacles, hz, ih, List.filter_cons]

/-- Helper: the same for the enhanced collectible cull. -/
theorem enhCullCol_filter (dt : ℚ) :
    ∀ l : List Enhanced.Collectible,
      Enhanced.cullCollectibles dt l =
        (l.map (Enhanced.Collectible.update dt)).filter (fun c => !decide (10 < c.pos.z)) := by
  intro l
  induction l with
  | nil => rfl
  | cons c rest ih =>
    by_cases hz : 10 < (Enhanced.Collectible.update dt c).pos.z
    · simp [Enhanced.cullCollectibles, hz, ih, List.filter_cons]
    · simp [Enhanced.cullCollectibles, hz, ih, List.filter_cons]

/-- Helper: everything the enhanced obstacle cull keeps is inside the
despawn threshold. -/
theorem enhCull_zo (dt : ℚ) (l : List Enhanced.Obstacle) :
    ∀ o ∈ Enhanced.cullObstacles dt l, o.pos.z ≤ 10 := by
  intro o ho
  rw [enhCullObs_filter] at ho
  have h2 := List.of_mem_filter ho
  simp only [Bool.not_eq_true', decide_eq_false_iff_not, not_lt] at h2
  exact h2

/-- Helper: everything the enhanced collectible cull keeps is inside the
despawn threshold. -/
theorem enhCull_zc (dt : ℚ) (l : List Enhanced.Collectible) :
    ∀ c ∈ Enhanced.cullCollectibles dt l, c.pos.z ≤ 10 := by
  intro c hc
  rw [enhCullCol_filter] at hc
  have h2 := List.of_mem_filter hc
  simp only [Bool.not_eq_true', decide_eq_false_iff_not, not_lt] at h2
  exact h2

/-- Helper: every obstacle surviving the enhanced scan came from the input. -/
theorem enhScanObs_mem (ppos : V3) :
    ∀ (l : List Enhanced.Obstacle) (lv : ℤ) (o : Enhanced.Obstacle),
      o ∈ (Enhanced.scanObstacles ppos l lv).1 → o ∈ l := by
  intro l
  induction l with
  | nil =>
    intro lv o ho
    simp [Enhanced.scanObstacles] at ho
  | cons x rest ih =>
    intro lv o ho
    by_cases hx : Enhanced.obsHit ppos x
    · by_cases h2 : lv - 1 ≤ 0
      · simp [Enhanced.scanObstacles, hx, h2] at ho
      · simp only [Enhanced.scanObstacles, hx, if_true, h2, if_false] at ho
        exact List.mem_cons_of_mem _ (ih _ o ho)
    · simp only [Enhanced.scanObstacles, hx, Bool.false_eq_true, if_false] at ho
      by_cases hgo : (Enhanced.scanObstacles ppos rest lv).2.2.1 = true
      · rw [if_pos hgo] at ho
        simp at ho
      · rw [if_neg hgo] at ho
        rcases List.mem_cons.mp ho with h | h
        · rw [h]
          exact List.mem_cons_self _ _
        · exact List.mem_cons_of_mem _ (ih _ o h)

/-- Helper: every collectible surviving the enhanced scan came from the
input. -/
theorem enhScanCol_mem (ppos : V3) :
    ∀ (l : List Enhanced.Collectible) (s : ℤ) (c : Enhanced.Collectible),
      c ∈ (Enhanced.scanCollectibles ppos l s).1 → c ∈ l := by
  intro l
  induction l with
  | nil =>
    intro s c hc
    simp [Enhanced.scanCollectibles] at hc
  | cons x rest ih =>
    intro s c hc
    by_cases hx : Enhanced.colHit ppos x
    · simp only [Enhanced.scanCollectibles, hx, if_true] at hc
      exact List.mem_cons_of_mem _ (ih _ c hc)
    · simp only [Enhanced.scanCollectibles, hx, Bool.false_eq_true, if_false] at hc
      rcases List.mem_cons.mp hc with h | h
      · rw [h]
        exact List.mem_cons_self _ _
      · exact List.mem_cons_of_mem _ (ih _ c h)

/-- Helper: the enhanced collision resolution only removes obstacles. -/
theorem enhCheck_mem_obstacles (w : Enhanced.World) :
    ∀ o ∈ (Enhanced.checkCollisions w).1.obstacles, o ∈ w.obstacles := by
  intro o ho
  rcases hscan : Enhanced.scanObstacles w.player.pos w.obstacles.reverse w.gameState.lives
    with ⟨obsRev, lives1, go, thrown⟩
  cases go with
  | true =>
    simp only [Enhanced.checkCollisions, hscan] at ho
    rw [List.mem_reverse] at ho
    have h2 : o ∈ w.obstacles.reverse :=
      enhScanObs_mem w.player.pos w.obstacles.reverse w.gameState.lives o
        (by rw [hscan]; exact ho)
    rwa [List.mem_reverse] at h2
  | false =>
    rcases hsc : Enhanced.scanCollectibles w.player.pos w.collectibles.reverse
      w.gameState.score with ⟨colsRev, score1⟩
    simp only [Enhanced.checkCollisions, hscan, hsc] at ho
    rw [List.mem_reverse] at ho
    have h2 : o ∈ w.obstacles.reverse :=
      enhScanObs_mem w.player.pos w.obstacles.reverse w.gameState.lives o
        (by rw [hscan]; exact ho)
    rwa [List.mem_reverse] at h2

/-- Helper: the enhanced collision resolution only removes collectibles. -/
theorem enhCheck_mem_collectibles (w : Enhanced.World) :
    ∀ c ∈ (Enhanced.checkCollisions w).1.collectibles, c ∈ w.collectibles := by
  intro c hc
  rcases hscan : Enhanced.scanObstacles w.player.pos w.obstacles.reverse w.gameState.lives
    with ⟨obsRev, lives1, go, thrown⟩
  cases go with
  | true =>
    simp only [Enhanced.checkCollisions, hscan] at hc
    simp at hc
  | false =>
    rcases hsc : Enhanced.scanCollectibles w.player.pos w.collectibles.reverse
      w.gameState.score with ⟨colsRev, score1⟩
    simp only [Enhanced.checkCollisions, hscan, hsc] at hc
    rw [List.mem_reverse] at hc
    have h2 : c ∈ w.collectibles.reverse :=
      enhScanCol_mem w.player.pos w.collectibles.reverse w.gameState.score c
        (by rw [hsc]; exact hc)
    rwa [List.mem_reverse] at h2

/-- Helper: every obstacle the enhanced splice loop creates sits at
z = -50. -/
theorem enhSplice_z (rs : ℕ → ℚ) (speed : ℚ) :
    ∀ (n k : ℕ) (avail : List ℤ),
      ∀ o ∈ (Enhanced.spliceObstacles rs speed n k avail).1, o.pos.z = -50 := by
  intro n
  induction n with
  | zero =>
    intro k avail o ho
    simp [Enhanced.spliceObstacles] at ho
  | succ m ih =>
    intro k avail o ho
    by_cases he : avail.isEmpty
    · simp [Enhanced.spliceObstacles, he] at ho
    · simp only [Enhanced.spliceObstacles, he, if_false] at ho
      rcases List.mem_cons.mp ho with h | h
      · rw [h]
        rfl
      · exact ih _ _ o h

/-- Helper: every collectible of one enhanced spawn tick is created at
z = -50. -/
theorem enhCollectPass_z (rs : ℕ → ℚ) :
    ∀ (k : ℕ) (ls : List ℤ) (speed : ℚ),
      ∀ c ∈ Enhanced.collectPass rs k ls speed, c.pos.z = -50 := by
  intro k ls
  induction ls generalizing k with
  | nil =>
    intro speed c hc
    simp [Enhanced.collectPass] at hc
  | cons lane rest ih =>
    intro speed c hc
    by_cases hr : rs k < 7/10
    · simp only [Enhanced.collectPass, hr, if_true] at hc
      rcases List.mem_cons.mp hc with h | h
      · rw [h]
        rfl
      · exact ih (k + 2) speed c h
    · simp only [Enhanced.collectPass, hr, if_false] at hc
      exact ih (k + 1) speed c hc

/-- Helper: the enhanced spawn block preserves the obstacle despawn bound. -/
theorem enhSpawnSection_zo (rs : ℕ → ℚ) (dt : ℚ) (w : Enhanced.World)
    (h : ∀ o ∈ w.obstacles, o.pos.z ≤ 10) :
    ∀ o ∈ (Enhanced.spawnSection rs dt w).obstacles, o.pos.z ≤ 10 := by
  intro o ho
  by_cases hs : w.spawnInterval ≤ w.spawnTimer + dt
  · rw [show (Enhanced.spawnSection rs dt w).obstacles =
        w.obstacles ++ (Enhanced.spliceObstacles rs w.gameState.speed
          (if rs 0 < 3/5 then 1 else 2) 1 [0, 1, 2]).1 by
        simp [Enhanced.spawnSection, hs, Enhanced.spawnObjects]] at ho
    rcases List.mem_append.mp ho with h2 | h2
    · exact h o h2
    · rw [enhSplice_z rs w.gameState.speed _ 1 [0, 1, 2] o h2]
      norm_num
  · rw [show (Enhanced.spawnSection rs dt w).obstacles = w.obstacles by
        simp [Enhanced.spawnSection, hs]] at ho
    exact h o ho

/-- Helper: the enhanced spawn block preserves the collectible despawn
bound. -/
theorem enhSpawnSection_zc (rs : ℕ → ℚ) (dt : ℚ) (w : Enhanced.World)
    (h : ∀ c ∈ w.collectibles, c.pos.z ≤ 10) :
    ∀ c ∈ (Enhanced.spawnSection rs dt w).collectibles, c.pos.z ≤ 10 := by
  intro c hc
  by_cases hs : w.spawnInterval ≤ w.spawnTimer + dt
  · rw [show (Enhanced.spawnSection rs dt w).collectibles =
        w.collectibles ++ Enhanced.collectPass rs
          (Enhanced.spliceObstacles rs w.gameState.speed
            (if rs 0 < 3/5 then 1 else 2) 1 [0, 1, 2]).2.2
          (Enhanced.spliceObstacles rs w.gameState.speed
            (if rs 0 < 3/5 then 1 else 2) 1 [0, 1, 2]).2.1
          w.gameState.speed by
        simp [Enhanced.spawnSection, hs, Enhanced.spawnObjects]] at hc
    rcases List.mem_append.mp hc with h2 | h2
    · exact h c h2
    · rw [enhCollectPass_z rs _ _ _ c h2]
      norm_num
  · rw [show (Enhanced.spawnSection rs dt w).collectibles = w.collectibles by
        simp [Enhanced.spawnSection, hs]] at hc
    exact h c hc

/-- Helper: while playing and unpaused, the enhanced update's resulting
collections are those of the collision resolution of the spawn block of the
physics step. -/
theorem enhUpdate_lists (rs : ℕ → ℚ) (dt : ℚ) (w : Enhanced.World)
    (hp : w.gameState.isPlaying = true) (hz : w.gameState.isPaused = false) :
    (Enhanced.update rs dt w).1.obstacles =
      (Enhanced.checkCollisions (Enhanced.spawnSection rs dt
        { w with player := Enhanced.Player.update dt w.player,
                 obstacles := Enhanced.cullObstacles dt w.obstacles,
                 collectibles := Enhanced.cullCollectibles dt w.collectibles })).1.obstacles ∧
    (Enhanced.update rs dt w).1.collectibles =
      (Enhanced.checkCollisions (Enhanced.spawnSection rs dt
        { w with player := Enhanced.Player.update dt w.player,
                 obstacles := Enhanced.cullObstacles dt w.obstacles,
                 collectibles := Enhanced.cullCollectibles dt w.collectibles })).1.collectibles := by
  simp only [Enhanced.update, hp, hz, Bool.not_true, Bool.or_false, Bool.false_eq_true,
    if_false]
  rcases hcc : Enhanced.checkCollisions (Enhanced.spawnSection rs dt
    { w with player := Enhanced.Player.update dt w.player,
             obstacles := Enhanced.cullObstacles dt w.obstacles,
             collectibles := Enhanced.cullCollectibles dt w.collectibles }) with ⟨w3, b⟩
  cases b <;> simp [hcc]

/-- Claim C9 (amended): after each frame's update, every member of both
active collections has position.z on the in-play side of the despawn
threshold (z at most 10), in both implementations; and the enhanced game's
reverse-order traversal realises exactly the no-skip removal discipline
(update every member once, remove exactly the crossers).  The main.ts
forward forEach-with-splice satisfies the z-invariant but not the no-skip
discipline: the element after each removed one is skipped that frame
(see the counterexample). -/
theorem C9_despawn_invariant :
    (∀ (rs : ℕ → ℚ) (dt : ℚ) (w : MainGame.World),
       (∀ o ∈ w.obstacles, o.pos.z ≤ 10) → (∀ c ∈ w.collectibles, c.pos.z ≤ 10) →
       (∀ o ∈ (MainGame.frame rs dt w).obstacles, o.pos.z ≤ 10) ∧
       (∀ c ∈ (MainGame.frame rs dt w).collectibles, c.pos.z ≤ 10)) ∧
    (∀ (rs : ℕ → ℚ) (dt : ℚ) (w : Enhanced.World),
       (∀ o ∈ w.obstacles, o.pos.z ≤ 10) → (∀ c ∈ w.collectibles, c.pos.z ≤ 10) →
       (∀ o ∈ (Enhanced.update rs dt w).1.obstacles, o.pos.z ≤ 10) ∧
       (∀ c ∈ (Enhanced.update rs dt w).1.collectibles, c.pos.z ≤ 10)) ∧
    (∀ (dt : ℚ) (l : List Enhanced.Obstacle),
       Enhanced.cullObstacles dt l =
         (l.map (Enhanced.Obstacle.update dt)).filter (fun o => !decide (10 < o.pos.z))) ∧
    (∀ (dt : ℚ) (l : List Enhanced.Collectible),
       Enhanced.cullCollectibles dt l =
         (l.map (Enhanced.Collectible.update dt)).filter (fun c => !decide (10 < c.pos.z))) := by
  refine ⟨?_, ?_, fun dt l => enhCullObs_filter dt l, fun dt l => enhCullCol_filter dt l⟩
  · intro rs dt w h1 h2
    by_cases hgd : (w.gameState.isPlaying && !w.gameState.gameOver) = true
    · have hp : w.gameState.isPlaying = true := by
        cases h : w.gameState.isPlaying
        · rw [h] at hgd
          simp at hgd
        · rfl
      have hg : w.gameState.gameOver = false := by
        cases h : w.gameState.gameOver
        · rfl
        · rw [h] at hgd
          simp at hgd
      rw [mainFrame_eq rs dt w hp hg]
      set w1 : MainGame.World :=
        { w with player := MainGame.Player.update dt w.player,
                 obstacles := MainGame.cullObstacles dt w.obstacles,
                 collectibles := MainGame.cullCollectibles dt w.collectibles } with hw1
      have hz1o : ∀ o ∈ w1.obstacles, o.pos.z ≤ 10 := by
        rw [hw1]
        exact forEachCull_z_le MainGame.Obstacle.update (fun o => o.pos.z) dt
          w.obstacles.length 0 w.obstacles h1
      have hz1c : ∀ c ∈ w1.collectibles, c.pos.z ≤ 10 := by
        rw [hw1]
        exact forEachCull_z_le MainGame.Collectible.update (fun c => c.pos.z) dt
          w.collectibles.length 0 w.collectibles h2
      have hz2o := mainSpawnSection_zo rs dt w1 hz1o
      have hz2c := mainSpawnSection_zc rs dt w1 hz1c
      constructor
      · intro o ho
        exact hz2o o (mainCheck_mem_obstacles (MainGame.spawnSection rs dt w1) o ho)
      · intro c hc
        exact hz2c c (mainCheck_mem_collectibles (MainGame.spawnSection rs dt w1) c hc)
    · have hfr : MainGame.frame rs dt w = w := by
        simp only [MainGame.frame]
        rw [if_neg hgd]
      rw [hfr]
      exact ⟨h1, h2⟩
  · intro rs dt w h1 h2
    cases hpv : w.gameState.isPlaying with
    | false =>
      have hfr : Enhanced.update rs dt w = (w, false) := by
        simp [Enhanced.update, hpv]
      rw [hfr]
      exact ⟨h1, h2⟩
    | true =>
      cases hzv : w.gameState.isPaused with
      | true =>
        have hfr : Enhanced.update rs dt w = (w, false) := by
          simp [Enhanced.update, hzv]
        rw [hfr]
        exact ⟨h1, h2⟩
      | false =>
        have heq := enhUpdate_lists rs dt w hpv hzv
        rw [heq.1, heq.2]
        set w1 : Enhanced.World :=
          { w with player := Enhanced.Player.update dt w.player,
                   obstacles := Enhanced.cullObstacles dt w.obstacles,
                   collectibles := Enhanced.cullCollectibles dt w.collectibles } with hw1
        have hz1o : ∀ o ∈ w1.obstacles, o.pos.z ≤ 10 := by
          rw [hw1]
          exact enhCull_zo dt w.obstacles
        have hz1c : ∀ c ∈ w1.collectibles, c.pos.z ≤ 10 := by
          rw [hw1]
          exact enhCull_zc dt w.collectibles
        have hz2o := enhSpawnSection_zo rs dt w1 hz1o
        have hz2c := enhSpawnSection_zc rs dt w1 hz1c
        constructor
        · intro o ho
          exact hz2o o (enhCheck_mem_obstacles (Enhanced.spawnSection rs dt w1) o ho)
        · intro c hc
          exact hz2c c (enhCheck_mem_collectibles (Enhanced.spawnSection rs dt w1) c hc)

/-- Witness for C9 at the cruising worlds with a zero-length frame: the
entities stay, on the in-play side of the threshold. -/
theorem C9_witness :
    (∀ o ∈ cruisingMain.obstacles, o.pos.z ≤ 10) ∧
    (∀ c ∈ cruisingMain.collectibles, c.pos.z ≤ 10) ∧
    (({ pos := ⟨2, 3/4, -8⟩, vel := 10 } : MainGame.Obstacle) ∈
      (MainGame.frame rsHalf 0 cruisingMain).obstacles ∧
     ({ pos := ⟨2, 3/4, -8⟩, vel := 10 } : MainGame.Obstacle).pos.z ≤ 10) ∧
    (∀ o ∈ cruisingEnh.obstacles, o.pos.z ≤ 10) ∧
    (∀ c ∈ cruisingEnh.collectibles, c.pos.z ≤ 10) ∧
    (({ pos := ⟨2, 3/4, -8⟩, velZ := 10 } : Enhanced.Obstacle) ∈
      (Enhanced.update rsHalf 0 cruisingEnh).1.obstacles ∧
     ({ pos := ⟨2, 3/4, -8⟩, velZ := 10 } : Enhanced.Obstacle).pos.z ≤ 10) := by
  have hm1 : ∀ o ∈ cruisingMain.obstacles, o.pos.z ≤ 10 := by
    intro o ho
    simp only [cruisingMain, List.mem_singleton] at ho
    rw [ho]
    norm_num
  have hm2 : ∀ c ∈ cruisingMain.collectibles, c.pos.z ≤ 10 := by
    intro c hc
    simp only [cruisingMain, List.mem_singleton] at hc
    rw [hc]
    norm_num
  have he1 : ∀ o ∈ cruisingEnh.obstacles, o.pos.z ≤ 10 := by
    intro o ho
    simp only [cruisingEnh, List.mem_singleton] at ho
    rw [ho]
    norm_num
  have he2 : ∀ c ∈ cruisingEnh.collectibles, c.pos.z ≤ 10 := by
    intro c hc
    simp only [cruisingEnh, List.mem_singleton] at hc
    rw [hc]
    norm_num
  have hmm : ({ pos := ⟨2, 3/4, -8⟩, vel := 10 } : MainGame.Obstacle) ∈
      (MainGame.frame rsHalf 0 cruisingMain).obstacles := by
    norm_num [MainGame.frame, MainGame.Player.update, MainGame.Player.init,
      MainGame.Player.pos, MainGame.cullObstacles, MainGame.cullCollectibles,
      MainGame.forEachCull, MainGame.spawnSection, MainGame.spawnInterval,
      MainGame.checkCollisions, MainGame.scanObstacles, MainGame.scanCollectibles,
      MainGame.obsHit, MainGame.colHit, V3.distSq, MainGame.Obstacle.update,
      MainGame.Collectible.update, cruisingMain, rsHalf, List.set]
  have hem : ({ pos := ⟨2, 3/4, -8⟩, velZ := 10 } : Enhanced.Obstacle) ∈
      (Enhanced.update rsHalf 0 cruisingEnh).1.obstacles := by
    norm_num [Enhanced.update, Enhanced.Player.update, Enhanced.Player.init,
      Enhanced.Player.pos, Enhanced.cullObstacles, Enhanced.cullCollectibles,
      Enhanced.spawnSection, Enhanced.checkCollisions, Enhanced.scanObstacles,
      Enhanced.scanCollectibles, Enhanced.obsHit, Enhanced.colHit, V3.distSq,
      Enhanced.Obstacle.update, Enhanced.Collectible.update, cruisingEnh, rsHalf]
  exact ⟨hm1, hm2,
    ⟨hmm, (C9_despawn_invariant.1 rsHalf 0 cruisingMain hm1 hm2).1 _ hmm⟩,
    he1, he2,
    ⟨hem, (C9_despawn_invariant.2.1 rsHalf 0 cruisingEnh he1 he2).1 _ hem⟩⟩
